import Mathlib

/-!
# Verification of the TypeScript-syntax lowering transform (`src/compiler/transformers/ts.ts`)

This file is a shallow embedding, in Lean 4, of the parts of the
TypeScript-to-JavaScript lowering transform that the specification's claims
are about:

* the enum-member lowering (`transformEnumMember`,
  `transformEnumMemberDeclarationValue`, `visitEnumDeclaration`),
* the merge-aware leading-variable emission for namespaces and enums
  (`recordEmittedDeclarationInScope`, `isFirstEmittedDeclarationInScope`,
  `addVarForEnumOrModuleDeclaration`),
* the state save/restore discipline (`saveStateAndInvoke`,
  `onBeforeVisitNode`),
* the decorator lowering of class declarations (`getClassFacts`,
  `visitClassDeclaration`, `getClassAliasIfNeeded`, and the
  decorator-collection helpers),
* the decorator-metadata type serializer (`serializeTypeNode`,
  `serializeTypeList`, `serializeTypeReferenceNode`,
  `serializeEntityNameAsExpression`), and
* the bodyless-declaration elision policy
  (`shouldEmitFunctionLikeDeclaration`, `shouldEmitAccessorDeclaration`,
  and the `visit*` functions that consult them), plus the declaration-file
  fast path of `transformSourceFile`.

Node identities are modelled as `Nat` ids; resolver ("oracle") answers are
carried on the modelled nodes; the printer-side factory helpers that only
attach source maps, comments, or emit flags are not modelled because no
claim mentions them.
-/

namespace TsTransform

/-- Mirrors the numeric values of `ScriptTarget` that the transform compares
against (`ts.ScriptTarget`): `ES3 = 0`, `ES5 = 1`, `ES2015 = 2`, ...,
`ESNext = 99`. -/
def ScriptTarget.ES5 : Nat := 1
def ScriptTarget.ES2015 : Nat := 2
def ScriptTarget.ESNext : Nat := 99

/-- Mirrors the numeric values of `ModuleKind` used by
`hasNamespaceQualifiedExportName` and `visitEnumDeclaration`:
`None = 0`, `CommonJS = 1`, `AMD = 2`, `UMD = 3`, `System = 4`,
`ES2015 = 5`, `ES2020 = 6`, `ES2022 = 7`, `ESNext = 99`. -/
def ModuleKind.System : Nat := 4
def ModuleKind.ES2015 : Nat := 5
def ModuleKind.ES2020 : Nat := 6
def ModuleKind.ES2022 : Nat := 7
def ModuleKind.ESNext : Nat := 99

/-- The emitted-JavaScript expression forms produced by the lowering
(the subset of factory-built syntax the claims inspect).
`loweredOther` stands for an already-lowered expression of a kind the
claims never inspect (for example a visited enum-member initializer);
`tempVar` stands for a temp variable produced by
`factory.createTempVariable` (its hoisting and fresh numbering happen in
the lexical-environment machinery, outside this model). -/
inductive Expr where
  | identE (name : String)
  | stringLiteral (s : String)
  | numericLiteral (n : Int)
  | voidZero
  | elementAccess (obj index : Expr)
  | assignment (lhs rhs : Expr)
  | logicalOr (l r : Expr)
  | logicalAnd (l r : Expr)
  | strictEquality (l r : Expr)
  | strictInequality (l r : Expr)
  | typeOfE (e : Expr)
  | conditional (cond whenTrue whenFalse : Expr)
  | propertyAccess (obj : Expr) (name : String)
  | objectLiteral
  | tempVar
  | loweredOther (tag : Nat)
  deriving Repr, DecidableEq

/-- `factory.createTypeCheck(value, tag)`: `typeof value === tag`. -/
def createTypeCheck (e : Expr) (tag : String) : Expr :=
  .strictEquality (.typeOfE e) (.stringLiteral tag)

/-- The `valueExpression.kind === SyntaxKind.StringLiteral` test used by
`transformEnumMember` (ts.ts line 2445). -/
def Expr.isStringLiteralKind : Expr → Bool
  | .stringLiteral _ => true
  | _ => false

/-- Structural sub-expression test (reflexive): used to state that a
produced expression contains a given assignment. -/
def Expr.containsSub (e sub : Expr) : Bool :=
  e == sub ||
  match e with
  | .elementAccess a b => a.containsSub sub || b.containsSub sub
  | .assignment a b => a.containsSub sub || b.containsSub sub
  | .logicalOr a b => a.containsSub sub || b.containsSub sub
  | .logicalAnd a b => a.containsSub sub || b.containsSub sub
  | .strictEquality a b => a.containsSub sub || b.containsSub sub
  | .strictInequality a b => a.containsSub sub || b.containsSub sub
  | .typeOfE a => a.containsSub sub
  | .conditional a b c => a.containsSub sub || b.containsSub sub || c.containsSub sub
  | .propertyAccess a _ => a.containsSub sub
  | _ => false

/-! ## Substitution flags (`TypeScriptSubstitutionFlags`, ts.ts lines 8-15) -/

/-- `TypeScriptSubstitutionFlags.ClassAliases = 1 << 0`. -/
def SubstFlag.ClassAliases : Nat := 1
/-- `TypeScriptSubstitutionFlags.NamespaceExports = 1 << 1`. -/
def SubstFlag.NamespaceExports : Nat := 2
/-- `TypeScriptSubstitutionFlags.NonQualifiedEnumMembers = 1 << 3`. -/
def SubstFlag.NonQualifiedEnumMembers : Nat := 8

/-- The per-compilation-unit substitution registry: the `enabledSubstitutions`
bit-set together with the syntax kinds passed to `context.enableSubstitution`
(modelled as a list of kind tags; `identifierKind = 0`,
`shorthandPropertyAssignmentKind = 1`). -/
structure SubstState where
  enabledSubstitutions : Nat
  enabledSubstitutionKinds : List Nat
  deriving Repr, DecidableEq

/-- `enableSubstitutionForNonQualifiedEnumMembers` (ts.ts lines 3157-3162). -/
def enableSubstitutionForNonQualifiedEnumMembers (s : SubstState) : SubstState :=
  if s.enabledSubstitutions &&& SubstFlag.NonQualifiedEnumMembers == 0 then
    { enabledSubstitutions := s.enabledSubstitutions ||| SubstFlag.NonQualifiedEnumMembers,
      enabledSubstitutionKinds := s.enabledSubstitutionKinds ++ [0] }
  else s

/-! ## Enum members (`transformEnumMember`, `transformEnumMemberDeclarationValue`) -/

/-- An enum member as the transform observes it: `nameExpr` is the result of
`getExpressionForPropertyName(member, false)` (for the ordinary
identifier-named member this is `factory.createStringLiteral(idText(name))`),
`constantValue` is the resolver oracle's `getConstantValue(member)` answer
(a string or a number, or none), and `loweredInitializer` is the result of
`visitNode(member.initializer, visitor, isExpression)` when the member has
an initializer. -/
structure EnumMemberModel where
  nameExpr : Expr
  constantValue : Option (String ⊕ Int)
  loweredInitializer : Option Expr
  deriving Repr, DecidableEq

/-- `transformEnumMemberDeclarationValue` (ts.ts lines 2470-2484): the
resolver's constant value wins; otherwise the non-qualified-enum-member
substitution class is enabled and the lowered initializer (or `void 0`)
is used. Returns the value expression together with the updated
substitution registry. -/
def transformEnumMemberDeclarationValue (member : EnumMemberModel) (s : SubstState) :
    Expr × SubstState :=
  match member.constantValue with
  | some (Sum.inl str) => (.stringLiteral str, s)
  | some (Sum.inr num) => (.numericLiteral num, s)
  | none =>
    let s' := enableSubstitutionForNonQualifiedEnumMembers s
    match member.loweredInitializer with
    | some e => (e, s')
    | none => (.voidZero, s')

/-- A lowered statement (the statement forms the claims inspect).
`varBinding name isBlockScoped` is the leading `var`/`let` statement built
by `addVarForEnumOrModuleDeclaration`; `mergeMarker` is the
`MergeDeclarationMarker` wrapping that same (unpushed) variable statement;
`enumOrModuleClosure param body arg` is the expression statement
`(function (param) { body })(arg)`, where `body` lists the expressions of
the expression statements forming the closure body (an enum body consists
solely of the members' expression statements); `endOfDeclarationMarker` is
the `EndOfDeclarationMarker`. -/
inductive Stmt where
  | exprStatement (e : Expr)
  | varBinding (name : String) (isBlockScoped : Bool)
  | mergeMarker (name : String) (isBlockScoped : Bool)
  | enumOrModuleClosure (param : String) (body : List Expr) (arg : Expr)
  | endOfDeclarationMarker
  | notEmittedStatement
  deriving Repr, DecidableEq

/-- `transformEnumMember` (ts.ts lines 2432-2463): one expression statement
per member; `container[name] = value` always, wrapped as
`container[container[name] = value] = name` unless the value expression is
a string literal. `container` is `currentNamespaceContainerName`. -/
def transformEnumMember (container : Expr) (member : EnumMemberModel) (s : SubstState) :
    Stmt × SubstState :=
  let name := member.nameExpr
  let (valueExpression, s') := transformEnumMemberDeclarationValue member s
  let innerAssignment := Expr.assignment (.elementAccess container name) valueExpression
  let outerAssignment :=
    if valueExpression.isStringLiteralKind then
      innerAssignment
    else
      Expr.assignment (.elementAccess container innerAssignment) name
  (.exprStatement outerAssignment, s')

/-! ## Traversal state (`currentLexicalScope`, `currentNameScope`,
`currentScopeFirstDeclarationsOfName`, `currentClassHasParameterProperties`;
ts.ts lines 63-69) and the save/restore discipline
(`saveStateAndInvoke`, `onBeforeVisitNode`; ts.ts lines 131-193) -/

/-- The node kinds `onBeforeVisitNode` dispatches on, plus `otherKind` for
every other kind (which leaves the state untouched). -/
inductive VNodeKind where
  | sourceFile | caseBlock | moduleBlock | block
  | classDeclaration | functionDeclaration
  | otherKind
  deriving Repr, DecidableEq

/-- A node as the traversal-state machinery observes it. `id` models node
identity (the `!==` comparisons of the source); `isAmbient` is
`hasSyntacticModifier(node, ModifierFlags.Ambient)`; `name` is the declared
identifier for class/function declarations (`none` for a default-exported
unnamed declaration). -/
structure VNode where
  id : Nat
  kind : VNodeKind
  isAmbient : Bool
  name : Option String
  deriving Repr, DecidableEq

/-- The value of the `currentLexicalScope` variable: the identity of the
scope node together with its kind (the kind is consulted by
`addVarForEnumOrModuleDeclaration`). -/
structure LexScope where
  id : Nat
  kind : VNodeKind
  deriving Repr, DecidableEq

/-- The module-level mutable traversal state of `transformTypeScript`
that `saveStateAndInvoke` captures and restores. The merge map
`currentScopeFirstDeclarationsOfName` is modelled as an association list
(name ↦ first-seen node id). -/
structure TransformState where
  currentLexicalScope : LexScope
  currentNameScope : Option Nat
  currentScopeFirstDeclarationsOfName : Option (List (String × Nat))
  currentClassHasParameterProperties : Option Bool
  deriving Repr, DecidableEq

/-- `Map.has` over the modelled merge map. -/
def mergeMapHas (m : List (String × Nat)) (name : String) : Bool :=
  m.any (fun p => p.1 == name)

/-- `Map.get` over the modelled merge map. -/
def mergeMapGet (m : List (String × Nat)) (name : String) : Option Nat :=
  (m.find? (fun p => p.1 == name)).map (fun p => p.2)

/-- `recordEmittedDeclarationInScope` (ts.ts lines 2518-2527): creates the
merge map on first use and records `name ↦ node` only when `name` is not
yet present. -/
def recordEmittedDeclarationInScope (name : String) (id : Nat) (s : TransformState) :
    TransformState :=
  let m := s.currentScopeFirstDeclarationsOfName.getD []
  if mergeMapHas m name then
    { s with currentScopeFirstDeclarationsOfName := some m }
  else
    { s with currentScopeFirstDeclarationsOfName := some (m ++ [(name, id)]) }

/-- `isFirstEmittedDeclarationInScope` (ts.ts lines 2533-2539): true when the
merge map does not exist, or maps the declared name to this very node. -/
def isFirstEmittedDeclarationInScope (name : String) (id : Nat) (s : TransformState) : Bool :=
  match s.currentScopeFirstDeclarationsOfName with
  | some m => mergeMapGet m name == some id
  | none => true

/-- `onBeforeVisitNode` (ts.ts lines 159-193): scope-introducing nodes
install themselves as the lexical scope and clear the name scope and merge
map; non-ambient class/function declarations record their name in the
current scope's merge map (the source's `Debug.assert` for the unnamed
non-default case is a no-op on the state); class declarations additionally
become the name scope. -/
def onBeforeVisitNode (node : VNode) (s : TransformState) : TransformState :=
  match node.kind with
  | .sourceFile | .caseBlock | .moduleBlock | .block =>
    { s with
      currentLexicalScope := ⟨node.id, node.kind⟩
      currentNameScope := none
      currentScopeFirstDeclarationsOfName := none }
  | .classDeclaration | .functionDeclaration =>
    if node.isAmbient then s
    else
      let s1 := match node.name with
        | some nm => recordEmittedDeclarationInScope nm node.id s
        | none => s
      if node.kind == .classDeclaration then { s1 with currentNameScope := some node.id }
      else s1
  | .otherKind => s

/-- `saveStateAndInvoke` (ts.ts lines 131-152): captures the four state
variables, runs `onBeforeVisitNode` and the visitor body `f`, then restores
the scope, name scope, and parameter-properties flag unconditionally; the
merge map is re-assigned to the captured value only when the lexical scope
changed during the visit (otherwise the variable keeps its current value,
including any names recorded during the visit). -/
def saveStateAndInvoke {α : Type} (node : VNode) (f : TransformState → TransformState × α)
    (s : TransformState) : TransformState × α :=
  let savedCurrentScope := s.currentLexicalScope
  let savedCurrentNameScope := s.currentNameScope
  let savedCurrentScopeFirstDeclarationsOfName := s.currentScopeFirstDeclarationsOfName
  let savedCurrentClassHasParameterProperties := s.currentClassHasParameterProperties
  let s1 := onBeforeVisitNode node s
  let (s2, visited) := f s1
  let restoredMap :=
    if s2.currentLexicalScope == savedCurrentScope then
      s2.currentScopeFirstDeclarationsOfName
    else
      savedCurrentScopeFirstDeclarationsOfName
  ({ s2 with
      currentScopeFirstDeclarationsOfName := restoredMap
      currentLexicalScope := savedCurrentScope
      currentNameScope := savedCurrentNameScope
      currentClassHasParameterProperties := savedCurrentClassHasParameterProperties },
   visited)

/-! ## Enum/namespace lowering (`addVarForEnumOrModuleDeclaration`,
`visitEnumDeclaration`; ts.ts lines 2305-2607) -/

/-- An enum (or, for the shared variable-emission logic, namespace)
declaration as the lowering observes it. `exported` is
`hasSyntacticModifier(node, ModifierFlags.Export)`; `isConst` is
`isEnumConst(node)`. -/
structure EnumOrModuleNode where
  id : Nat
  name : String
  exported : Bool
  isConst : Bool
  members : List EnumMemberModel
  deriving Repr, DecidableEq

/-- The surrounding-context facts the enum/namespace lowering consults:
the configured module kind, whether a namespace is currently open
(`currentNamespace`), and the open namespace's generated container name
(`currentNamespaceContainerName`). -/
structure LowerContext where
  moduleKind : Nat
  currentNamespaceContainerName : Option String
  preserveConstEnums : Bool
  deriving Repr, DecidableEq

/-- `factory.getGeneratedNameForNode`: the factory's unique-name generator
is outside this model; we use a deterministic marker derived from the
declared name (uniqueness plays no role in the claims). -/
def generatedNameForNode (node : EnumOrModuleNode) : String :=
  node.name ++ "_generated"

/-- `factory.getLocalName(node)`: the declaration's local binding name. -/
def getLocalName (node : EnumOrModuleNode) : Expr :=
  .identE node.name

/-- Modelled from the spec:
`factory.getExternalModuleOrNamespaceExportName` is repository code absent
from `src/`. Per §4.3, the exported binding expression is "qualified through
the enclosing namespace chain if exported from one, or a
module-export-qualified form if exported from the outermost scope". -/
def externalModuleOrNamespaceExportName (ctx : LowerContext) (node : EnumOrModuleNode) : Expr :=
  match ctx.currentNamespaceContainerName with
  | some container => .propertyAccess (.identE container) node.name
  | none => .propertyAccess (.identE "exports") node.name

/-- `isExportOfNamespace` (ts.ts lines 3043-3045). -/
def isExportOfNamespace (ctx : LowerContext) (node : EnumOrModuleNode) : Bool :=
  ctx.currentNamespaceContainerName.isSome && node.exported

/-- `isExternalModuleExport` (ts.ts lines 3052-3054). -/
def isExternalModuleExport (ctx : LowerContext) (node : EnumOrModuleNode) : Bool :=
  ctx.currentNamespaceContainerName.isNone && node.exported

/-- `hasNamespaceQualifiedExportName` (ts.ts lines 2504-2512). -/
def hasNamespaceQualifiedExportName (ctx : LowerContext) (node : EnumOrModuleNode) : Bool :=
  isExportOfNamespace ctx node
    || (isExternalModuleExport ctx node
        && ctx.moduleKind != ModuleKind.ES2015
        && ctx.moduleKind != ModuleKind.ES2020
        && ctx.moduleKind != ModuleKind.ES2022
        && ctx.moduleKind != ModuleKind.ESNext
        && ctx.moduleKind != ModuleKind.System)

/-- `addVarForEnumOrModuleDeclaration` (ts.ts lines 2549-2607): builds the
leading variable statement (plain `var` at source-file scope, `let`
otherwise; modifier stripping and source-map/comment adjustments are not
modelled), records the declaration in the scope's merge map, then either
pushes the variable statement (first declaration of the name: returns
`true`) or pushes a `MergeDeclarationMarker` wrapping it (merging
declaration: returns `false`). -/
def addVarForEnumOrModuleDeclaration (node : EnumOrModuleNode) (s : TransformState) :
    List Stmt × Bool × TransformState :=
  let isBlockScoped := s.currentLexicalScope.kind != VNodeKind.sourceFile
  let s1 := recordEmittedDeclarationInScope node.name node.id s
  if isFirstEmittedDeclarationInScope node.name node.id s1 then
    ([.varBinding node.name isBlockScoped], true, s1)
  else
    ([.mergeMarker node.name isBlockScoped], false, s1)

/-- The expression part of `transformEnumMember` (the statement wrapper is
`transformEnumMember` above): exposed separately so the enum body can be
assembled as a list of expression statements. -/
def transformEnumMemberExpression (container : Expr) (member : EnumMemberModel)
    (s : SubstState) : Expr × SubstState :=
  let name := member.nameExpr
  let (valueExpression, s') := transformEnumMemberDeclarationValue member s
  let innerAssignment := Expr.assignment (.elementAccess container name) valueExpression
  let outerAssignment :=
    if valueExpression.isStringLiteralKind then
      innerAssignment
    else
      Expr.assignment (.elementAccess container innerAssignment) name
  (outerAssignment, s')

/-- `transformEnumBody` (ts.ts lines 2410-2425): one expression statement
per member, in member order (the lexical-environment bracketing introduces
no statements in this model because enum member lowering hoists nothing). -/
def transformEnumBody (members : List EnumMemberModel) (containerName : String)
    (s : SubstState) : List Expr × SubstState :=
  members.foldl
    (fun acc m =>
      let (e, s') := transformEnumMemberExpression (.identE containerName) m acc.2
      (acc.1 ++ [e], s'))
    ([], s)

/-- `shouldEmitEnumDeclaration` (ts.ts lines 2305-2308). -/
def shouldEmitEnumDeclaration (ctx : LowerContext) (node : EnumOrModuleNode) : Bool :=
  !node.isConst || ctx.preserveConstEnums

/-- `visitEnumDeclaration` (ts.ts lines 2317-2403): a non-emitted enum
becomes a `NotEmittedStatement`; otherwise the leading variable statement
(or merge marker) is followed by the `(function (param) { body })(arg)`
expression statement — with `arg` being `exportName || (exportName = {})`,
wrapped in a local-name assignment when the export name is qualified — and
an `EndOfDeclarationMarker`. Emit-flag bookkeeping is not modelled. -/
def visitEnumDeclaration (ctx : LowerContext) (node : EnumOrModuleNode)
    (s : TransformState) (subst : SubstState) :
    List Stmt × TransformState × SubstState :=
  if !shouldEmitEnumDeclaration ctx node then
    ([.notEmittedStatement], s, subst)
  else
    let varStmts := (addVarForEnumOrModuleDeclaration node s).1
    let s1 := (addVarForEnumOrModuleDeclaration node s).2.2
    let parameterName := generatedNameForNode node
    let containerName := generatedNameForNode node
    let exportName :=
      if node.exported then externalModuleOrNamespaceExportName ctx node
      else getLocalName node
    let moduleArg0 := Expr.logicalOr exportName (.assignment exportName .objectLiteral)
    let moduleArg :=
      if hasNamespaceQualifiedExportName ctx node then
        Expr.assignment (getLocalName node) moduleArg0
      else moduleArg0
    (varStmts ++ [.enumOrModuleClosure parameterName
                    (transformEnumBody node.members containerName subst).1 moduleArg,
                  .endOfDeclarationMarker],
     s1, (transformEnumBody node.members containerName subst).2)

/-! ## Bodyless-declaration elision (`shouldEmitFunctionLikeDeclaration`,
`shouldEmitAccessorDeclaration`, and the visit functions that consult them;
ts.ts lines 1887-2125) -/

/-- A function-like declaration (constructor, method, accessor, function
declaration/expression) as the elision policy observes it: whether its body
is present (`!nodeIsMissing(node.body)`) and whether it carries the
`abstract` modifier. -/
structure FnLikeNode where
  id : Nat
  bodyPresent : Bool
  isAbstract : Bool
  deriving Repr, DecidableEq

/-- `shouldEmitFunctionLikeDeclaration` (ts.ts lines 1887-1889). -/
def shouldEmitFunctionLikeDeclaration (node : FnLikeNode) : Bool :=
  node.bodyPresent

/-- `shouldEmitAccessorDeclaration` (ts.ts lines 2040-2042): an accessor is
kept unless its body is missing *and* it is abstract. -/
def shouldEmitAccessorDeclaration (node : FnLikeNode) : Bool :=
  !(!node.bodyPresent && node.isAbstract)

/-- The body of an emitted function-like declaration: either the visited
original body, or the empty block that `|| factory.createBlock([])`
substitutes when `visitFunctionBody` returned `undefined`. -/
inductive EmittedBody where
  | visitedOriginal (ofNode : Nat)
  | emptyBlock
  deriving Repr, DecidableEq

/-- `visitFunctionBody(node.body, visitor, context)` returns `undefined`
exactly when the body is missing; otherwise the visited body. -/
def visitFunctionBody (node : FnLikeNode) : Option EmittedBody :=
  if node.bodyPresent then some (.visitedOriginal node.id) else none

/-- The result forms of the function-like visit functions that the claims
distinguish: an emitted declaration carrying its body, an elided result
(`undefined`), a `NotEmittedStatement` placeholder, or an
`OmittedExpression`. -/
inductive FnVisitResult where
  | emitted (body : EmittedBody)
  | elided
  | notEmittedStatement
  | omittedExpression
  deriving Repr, DecidableEq

/-- `visitConstructor` (ts.ts lines 1913-1925): `undefined` when the body is
missing, otherwise the updated declaration (parameter-property promotion is
modelled elsewhere; here only emission vs. elision matters). -/
def visitConstructor (node : FnLikeNode) : FnVisitResult :=
  if !shouldEmitFunctionLikeDeclaration node then .elided
  else .emitted (.visitedOriginal node.id)

/-- `visitMethodDeclaration` (ts.ts lines 2009-2032). -/
def visitMethodDeclaration (node : FnLikeNode) : FnVisitResult :=
  if !shouldEmitFunctionLikeDeclaration node then .elided
  else .emitted ((visitFunctionBody node).getD .emptyBlock)

/-- `visitGetAccessor` (ts.ts lines 2044-2064): kept unless bodyless and
abstract; the emitted body is `visitFunctionBody(...) || createBlock([])`. -/
def visitGetAccessor (node : FnLikeNode) : FnVisitResult :=
  if !shouldEmitAccessorDeclaration node then .elided
  else .emitted ((visitFunctionBody node).getD .emptyBlock)

/-- `visitSetAccessor` (ts.ts lines 2066-2085): same policy as
`visitGetAccessor`. -/
def visitSetAccessor (node : FnLikeNode) : FnVisitResult :=
  if !shouldEmitAccessorDeclaration node then .elided
  else .emitted ((visitFunctionBody node).getD .emptyBlock)

/-- `visitFunctionDeclaration` (ts.ts lines 2087-2108): a bodyless function
declaration becomes a `NotEmittedStatement` (the namespace-export tail is
modelled elsewhere). -/
def visitFunctionDeclaration (node : FnLikeNode) : FnVisitResult :=
  if !shouldEmitFunctionLikeDeclaration node then .notEmittedStatement
  else .emitted ((visitFunctionBody node).getD .emptyBlock)

/-- `visitFunctionExpression` (ts.ts lines 2110-2125): a bodyless function
expression becomes an `OmittedExpression`. -/
def visitFunctionExpression (node : FnLikeNode) : FnVisitResult :=
  if !shouldEmitFunctionLikeDeclaration node then .omittedExpression
  else .emitted ((visitFunctionBody node).getD .emptyBlock)

/-! ## `transformSourceFile` (ts.ts lines 112-124) -/

/-- A source file as `transformSourceFile` observes it: the declaration-file
flag and an opaque payload standing for the file's statements. -/
structure SourceFileModel where
  id : Nat
  isDeclarationFile : Bool
  payload : Nat
  deriving Repr, DecidableEq

/-- The observable outcome of `transformSourceFile`: the returned file, and
whether the visitor pipeline ran (`saveStateAndInvoke(node, visitSourceFile)`)
and emit helpers were attached (`addEmitHelpers(visited, ...)`). -/
structure SourceFileTransformResult where
  output : SourceFileModel
  visitorRan : Bool
  emitHelpersAdded : Bool
  deriving Repr, DecidableEq

/-- `transformSourceFile` (ts.ts lines 112-124), parameterized by the
visitor pipeline `visit` (the composition of `saveStateAndInvoke` with
`visitSourceFile`): a declaration file is returned as-is, with no visit and
no emit helpers; any other file is visited and gets emit helpers attached. -/
def transformSourceFile (visit : SourceFileModel → SourceFileModel)
    (node : SourceFileModel) : SourceFileTransformResult :=
  if node.isDeclarationFile then
    { output := node, visitorRan := false, emitHelpersAdded := false }
  else
    { output := visit node, visitorRan := true, emitHelpersAdded := true }

/-! ## Class lowering (`getClassFacts`, `visitClassDeclaration`,
decorator collection, `getClassAliasIfNeeded`; ts.ts lines 570-692,
919-1252, 3137-3145) -/

/-- The class-member kinds the decorator machinery distinguishes
(`getAllDecoratorsOfClassElement` dispatches on these; every other member
kind falls into its `default` branch). -/
inductive MemberKind where
  | propertyDeclaration | methodDeclaration | getAccessor | setAccessor
  | constructorDecl | otherMember
  deriving Repr, DecidableEq

/-- A class member as the decorator lowering observes it. `hasDecorators` is
`some(member.decorators)`; `paramHasDecorators` is whether any of the
member's parameters carries decorators; `hasBody` is `!!member.body`;
`hasInitializer` is whether a property declaration has an initializer;
`otherTSClassSyntax` stands for the remaining sources of the
`ContainsTypeScriptClassSyntax` transform flag (e.g. parameter
properties). -/
structure ClassMember where
  kind : MemberKind
  name : String
  isStatic : Bool
  hasDecorators : Bool
  paramHasDecorators : Bool
  hasBody : Bool
  hasInitializer : Bool
  otherTSClassSyntax : Bool
  deriving Repr, DecidableEq

/-- `nodeOrChildIsDecorated(member, parent)` for a class element: the member
itself or one of its parameters carries decorators. (The helper lives in
the repository's utilities, outside `src/`; the spec's reading is
"decorated members … or have parameters that are decorated", matching the
doc comments at ts.ts lines 911-918.) -/
def nodeOrChildIsDecoratedMember (m : ClassMember) : Bool :=
  m.hasDecorators || m.paramHasDecorators

/-- `hasTypeScriptClassSyntax(member)` — the `ContainsTypeScriptClassSyntax`
transform flag of a member. Modelled after the factory's flag computation
(outside `src/`): decorators (own or parameter) set the flag, a static
initialized property sets it (its initializer must be hoisted out of the
class), and `otherTSClassSyntax` covers the remaining sources. -/
def memberHasTSClassSyntax (m : ClassMember) : Bool :=
  m.hasDecorators || m.paramHasDecorators
    || (m.isStatic && m.hasInitializer && m.kind == MemberKind.propertyDeclaration)
    || m.otherTSClassSyntax

/-- A class declaration as the class lowering observes it.
`hasConstructorReference` is the resolver oracle's
`getNodeCheckFlags(node) & NodeCheckFlags.ClassWithConstructorReference`
answer; `extendsNonNull` is "`getEffectiveBaseTypeNode` exists and its
expression is not the `null` literal"; `heritageTSSyntax` stands for
`some(node.heritageClauses, hasTypeScriptClassSyntax)`. -/
structure ClassModel where
  id : Nat
  name : Option String
  members : List ClassMember
  classDecorators : Bool
  typeParameters : Bool
  heritageTSSyntax : Bool
  extendsNonNull : Bool
  exported : Bool
  defaultModifier : Bool
  hasConstructorReference : Bool
  deriving Repr, DecidableEq

/-- `isClassLikeDeclarationWithTypeScriptSyntax` (ts.ts lines 588-593). -/
def isClassLikeDeclarationWithTypeScriptSyntax (node : ClassModel) : Bool :=
  node.classDecorators
    || node.typeParameters
    || node.heritageTSSyntax
    || node.members.any memberHasTSClassSyntax

/-- `getFirstConstructorWithBody(node)` (a repository utility outside
`src/`): the first constructor member that has a body. -/
def getFirstConstructorWithBody (node : ClassModel) : Option ClassMember :=
  node.members.find? (fun m => m.kind == MemberKind.constructorDecl && m.hasBody)

/-- `classOrConstructorParameterIsDecorated(node)` — modelled from the spec
(§4.2: "any constructor-or-its-parameters decorated"; the helper lives
outside `src/`): the class itself carries decorators, or the first
constructor with a body has a decorated parameter (consistently with
`getAllDecoratorsOfConstructor`, ts.ts lines 996-1007, which collects
parameter decorators from `getFirstConstructorWithBody`). -/
def classOrConstructorParameterIsDecorated (node : ClassModel) : Bool :=
  node.classDecorators
    || (match getFirstConstructorWithBody node with
        | some c => c.paramHasDecorators
        | none => false)

/-- `childIsDecorated(node)` for a class — modelled from the spec (§4.2:
"any member decorated"; the helper lives outside `src/`): some member or
one of its parameters is decorated. -/
def childIsDecorated (node : ClassModel) : Bool :=
  node.members.any nodeOrChildIsDecoratedMember

/-- `getProperties(node, /*requireInitializer*/ true, /*isStatic*/ true)`
(a repository utility outside `src/`): the static property declarations
that have initializers. -/
def getStaticInitializedProperties (node : ClassModel) : List ClassMember :=
  node.members.filter (fun m =>
    m.kind == MemberKind.propertyDeclaration && m.isStatic && m.hasInitializer)

/-- `ClassFacts` bit values (ts.ts lines 17-32). -/
def ClassFacts.HasStaticInitializedProperties : Nat := 1
def ClassFacts.HasConstructorDecorators : Nat := 2
def ClassFacts.HasMemberDecorators : Nat := 4
def ClassFacts.IsExportOfNamespace : Nat := 8
def ClassFacts.IsNamedExternalExport : Nat := 16
def ClassFacts.IsDefaultExternalExport : Nat := 32
def ClassFacts.IsDerivedClass : Nat := 64
def ClassFacts.UseImmediatelyInvokedFunctionExpression : Nat := 128
def ClassFacts.MayNeedImmediatelyInvokedFunctionExpression : Nat :=
  ClassFacts.HasConstructorDecorators ||| ClassFacts.HasMemberDecorators
    ||| ClassFacts.HasStaticInitializedProperties

/-- `isExportOfNamespace` (ts.ts lines 3043-3045) applied to a class. -/
def classIsExportOfNamespace (insideNamespace : Bool) (node : ClassModel) : Bool :=
  insideNamespace && node.exported

/-- `isDefaultExternalModuleExport` (ts.ts lines 3071-3074) applied to a
class. -/
def classIsDefaultExternalModuleExport (insideNamespace : Bool) (node : ClassModel) : Bool :=
  !insideNamespace && node.exported && node.defaultModifier

/-- `isNamedExternalModuleExport` (ts.ts lines 3061-3064) applied to a
class. -/
def classIsNamedExternalModuleExport (insideNamespace : Bool) (node : ClassModel) : Bool :=
  !insideNamespace && node.exported && !node.defaultModifier

/-- `getClassFacts` (ts.ts lines 570-582). -/
def getClassFacts (languageVersion : Nat) (insideNamespace : Bool)
    (node : ClassModel) (staticProperties : List ClassMember) : Nat :=
  let f1 := if staticProperties != [] then ClassFacts.HasStaticInitializedProperties else 0
  let f2 := if node.extendsNonNull then f1 ||| ClassFacts.IsDerivedClass else f1
  let f3 := if classOrConstructorParameterIsDecorated node then
      f2 ||| ClassFacts.HasConstructorDecorators else f2
  let f4 := if childIsDecorated node then f3 ||| ClassFacts.HasMemberDecorators else f3
  let f5 :=
    if classIsExportOfNamespace insideNamespace node then
      f4 ||| ClassFacts.IsExportOfNamespace
    else if classIsDefaultExternalModuleExport insideNamespace node then
      f4 ||| ClassFacts.IsDefaultExternalExport
    else if classIsNamedExternalModuleExport insideNamespace node then
      f4 ||| ClassFacts.IsNamedExternalExport
    else f4
  if languageVersion ≤ ScriptTarget.ES5
      && (f5 &&& ClassFacts.MayNeedImmediatelyInvokedFunctionExpression != 0) then
    f5 ||| ClassFacts.UseImmediatelyInvokedFunctionExpression
  else f5

/-- The part of an `AllDecorators` value (ts.ts lines 957-960) the claims
observe: whether the declaration's own decorators and whether parameter
decorators are present. -/
structure AllDecoratorsModel where
  hasOwn : Bool
  hasParams : Bool
  deriving Repr, DecidableEq

/-- `getAllAccessorDeclarations(node.members, accessor)` (a repository
utility outside `src/`): the accessors sharing the accessor's name and
static-ness, in declaration order, as (index, member) pairs. -/
def accessorPair (members : List ClassMember) (m : ClassMember) : List (Nat × ClassMember) :=
  members.enum.filter (fun p =>
    (p.2.kind == MemberKind.getAccessor || p.2.kind == MemberKind.setAccessor)
      && p.2.name == m.name && p.2.isStatic == m.isStatic)

/-- `getAllDecoratorsOfAccessors` (ts.ts lines 1038-1056): only the first
decorated accessor of a get/set pair yields decorators, and only if the
visited accessor has a body; parameter decorators come from the pair's set
accessor. The visited accessor is identified by its index `idx` in the
member list (the source compares node identities). -/
def getAllDecoratorsOfAccessors (members : List ClassMember) (idx : Nat)
    (m : ClassMember) : Option AllDecoratorsModel :=
  if !m.hasBody then none
  else
    let pair := accessorPair members m
    let firstAccessorWithDecorators : Option (Nat × ClassMember) :=
      match pair.get? 0 with
      | some f =>
        if f.2.hasDecorators then some f
        else
          match pair.get? 1 with
          | some sec => if sec.2.hasDecorators then some sec else none
          | none => none
      | none => none
    match firstAccessorWithDecorators with
    | none => none
    | some fw =>
      if fw.1 != idx then none
      else
        let setAccessor := (pair.take 2).find? (fun p => p.2.kind == MemberKind.setAccessor)
        let hasParams := match setAccessor with
          | some sa => sa.2.paramHasDecorators
          | none => false
        if !fw.2.hasDecorators && !hasParams then none
        else some { hasOwn := fw.2.hasDecorators, hasParams := hasParams }

/-- `getAllDecoratorsOfMethod` (ts.ts lines 1063-1075): nothing is collected
for a bodyless method. -/
def getAllDecoratorsOfMethod (m : ClassMember) : Option AllDecoratorsModel :=
  if !m.hasBody then none
  else if !m.hasDecorators && !m.paramHasDecorators then none
  else some { hasOwn := m.hasDecorators, hasParams := m.paramHasDecorators }

/-- `getAllDecoratorsOfProperty` (ts.ts lines 1082-1090). -/
def getAllDecoratorsOfProperty (m : ClassMember) : Option AllDecoratorsModel :=
  if !m.hasDecorators then none
  else some { hasOwn := true, hasParams := false }

/-- `getAllDecoratorsOfClassElement` (ts.ts lines 1015-1030): dispatch by
member kind; any other kind (including a constructor) yields nothing. -/
def getAllDecoratorsOfClassElement (members : List ClassMember) (idx : Nat)
    (m : ClassMember) : Option AllDecoratorsModel :=
  match m.kind with
  | .getAccessor | .setAccessor => getAllDecoratorsOfAccessors members idx m
  | .methodDeclaration => getAllDecoratorsOfMethod m
  | .propertyDeclaration => getAllDecoratorsOfProperty m
  | _ => none

/-- `getAllDecoratorsOfConstructor` (ts.ts lines 996-1007): the class's own
decorators plus parameter decorators of the first constructor with a
body. -/
def getAllDecoratorsOfConstructor (node : ClassModel) : Option AllDecoratorsModel :=
  let hasParams := match getFirstConstructorWithBody node with
    | some c => c.paramHasDecorators
    | none => false
  if !node.classDecorators && !hasParams then none
  else some { hasOwn := node.classDecorators, hasParams := hasParams }

/-- The lowered statement forms `visitClassDeclaration` accumulates that the
claims inspect: the class binding statement (`classHead withDecorators
aliasAssigned` — a variable-bound class expression when the constructor is
decorated, a plain class declaration otherwise), one `__decorate` call
statement per member whose decorators were collected, and the constructor
`__decorate` statement (which also assigns the class alias when one
exists). -/
inductive ClassStmt where
  | classHead (withDecorators : Bool) (aliasAssigned : Bool)
  | memberDecorate (isStatic : Bool) (memberName : String)
  | ctorDecorate (aliasAssigned : Bool)
  deriving Repr, DecidableEq

/-- `isDecoratedClassElement` (ts.ts lines 949-952). -/
def isDecoratedClassElement (m : ClassMember) (isStaticElement : Bool) : Bool :=
  nodeOrChildIsDecoratedMember m && m.isStatic == isStaticElement

/-- `getDecoratedClassElements` (ts.ts lines 919-921), keeping each member's
index in the member list (for the source's node-identity comparisons). -/
def getDecoratedClassElements (node : ClassModel) (isStatic : Bool) :
    List (Nat × ClassMember) :=
  node.members.enum.filter (fun p => isDecoratedClassElement p.2 isStatic)

/-- `generateClassElementDecorationExpression` (ts.ts lines 1153-1214),
reduced to the observable statement tag: `undefined` exactly when no
decorators could be collected for the member. -/
def generateClassElementDecorationExpression (node : ClassModel) (idx : Nat)
    (m : ClassMember) : Option ClassStmt :=
  match getAllDecoratorsOfClassElement node.members idx m with
  | none => none
  | some _ => some (.memberDecorate m.isStatic m.name)

/-- `generateClassElementDecorationExpressions` +
`addClassElementDecorationStatements` (ts.ts lines 1118-1145): one statement
per decorated member whose decoration expression is produced, in member
order. -/
def classElementDecorationStatements (node : ClassModel) (isStatic : Bool) :
    List ClassStmt :=
  (getDecoratedClassElements node isStatic).filterMap
    (fun p => generateClassElementDecorationExpression node p.1 p.2)

/-- `getClassAliasIfNeeded` (ts.ts lines 3137-3145): an alias is created
(and recorded in `classAliases`) exactly when the resolver reports a
constructor self-reference. Only `createClassDeclarationHeadWithDecorators`
calls this. The unique-name machinery is modelled by a deterministic
marker. -/
def getClassAliasIfNeeded (node : ClassModel) : Option String :=
  if node.hasConstructorReference then
    some ((node.name.getD "default") ++ "_1")
  else none

/-- `addConstructorDecorationStatement` /
`generateConstructorDecorationExpression` (ts.ts lines 1221-1252): a
statement is pushed exactly when constructor decorators were collected; the
expression assigns through the class alias when `classAliases` holds an
entry for the class. -/
def constructorDecorationStatements (node : ClassModel) (aliasCreated : Bool) :
    List ClassStmt :=
  match getAllDecoratorsOfConstructor node with
  | none => []
  | some _ => [.ctorDecorate aliasCreated]

/-- The result of the statement-assembly phase of `visitClassDeclaration`
(ts.ts lines 595-618): `fastPath` is the structural-recursion early return
of lines 596-598; `stmts` is the `statements` array as of line 618 — the
IIFE wrapping and export tails of lines 620-691 only wrap or append to this
sequence without reordering it. `aliasCreated` records whether
`getClassAliasIfNeeded` populated `classAliases` for this class. -/
structure ClassLowerResult where
  fastPath : Bool
  facts : Nat
  aliasCreated : Bool
  stmts : List ClassStmt
  deriving Repr, DecidableEq

/-- `visitClassDeclaration` through line 618: the class head (built by
`createClassDeclarationHeadWithDecorators` when the constructor is
decorated, `createClassDeclarationHeadWithoutDecorators` otherwise),
followed by instance-member decoration statements, static-member decoration
statements, and the constructor decoration statement. -/
def visitClassDeclarationCore (languageVersion : Nat) (insideNamespace : Bool)
    (node : ClassModel) : ClassLowerResult :=
  if !isClassLikeDeclarationWithTypeScriptSyntax node
      && !(insideNamespace && node.exported) then
    { fastPath := true, facts := 0, aliasCreated := false, stmts := [] }
  else
    let staticProperties := getStaticInitializedProperties node
    let facts := getClassFacts languageVersion insideNamespace node staticProperties
    let hasCtorDecorators := facts &&& ClassFacts.HasConstructorDecorators != 0
    let classAlias := if hasCtorDecorators then getClassAliasIfNeeded node else none
    let classStatement :=
      if hasCtorDecorators then ClassStmt.classHead true classAlias.isSome
      else ClassStmt.classHead false false
    { fastPath := false
      facts := facts
      aliasCreated := classAlias.isSome
      stmts := [classStatement]
        ++ classElementDecorationStatements node false
        ++ classElementDecorationStatements node true
        ++ constructorDecorationStatements node classAlias.isSome }

/-! ## The decorator-metadata type serializer (`serializeTypeNode`,
`serializeTypeList`, `serializeTypeReferenceNode`,
`serializeEntityNameAsExpression(Fallback)`; ts.ts lines 1488-1756) -/

/-- The literal kinds a `LiteralTypeNode` can carry. The first eight are the
closed set handled by the inner switch of `serializeTypeNode` (ts.ts lines
1520-1542); `regularExpressionLiteral` is a `LiteralExpression` kind outside
that set (representable in a `LiteralTypeNode` from an invalid parse), on
which the switch's `default` branch calls `Debug.failBadSyntaxKind`. -/
inductive LiteralTKind where
  | stringLiteral | noSubstitutionTemplateLiteral | prefixUnaryExpression | numericLiteral
  | bigIntLiteral | trueKeyword | falseKeyword | nullKeyword
  | regularExpressionLiteral
  deriving Repr, DecidableEq

/-- `TypeReferenceSerializationKind` — the type-reference classification
oracle's closed answer set (spec §6). -/
inductive TypeReferenceSerializationKind where
  | unknown | typeWithConstructSignatureAndValue | voidNullableOrNeverType | bigIntLikeType
  | booleanType | numberLikeType | stringLikeType | arrayLikeType | esSymbolType
  | typeWithCallSignature | promise | objectType
  deriving Repr, DecidableEq

/-- An entity name: an identifier or a qualified name `A.B`. -/
inductive EntityName where
  | ident (s : String)
  | qualified (l : EntityName) (r : String)
  deriving Repr, DecidableEq

/-- The `TypeOperator` operators (`readonly` is the only one
`serializeTypeNode` unwraps; the others fall through to the generic
`Object`). -/
inductive TypeOperatorKind where
  | readonlyOp | keyofOp | uniqueOp
  deriving Repr, DecidableEq

/-- The type-annotation nodes `serializeTypeNode` dispatches on, one
constructor per `SyntaxKind` case of its switch (ts.ts lines 1493-1595).
A `typeReference` carries its oracle answers: the
`getTypeReferenceSerializationKind` classification and whether the
reference sits in a conditional-type branch (the `findAncestor` test of
line 1651). -/
inductive TypeNode where
  | voidKeyword | undefinedKeyword | neverKeyword
  | parenthesizedType (t : TypeNode)
  | functionType | constructorType
  | arrayType | tupleType
  | typePredicate | booleanKeyword
  | stringKeyword | objectKeyword
  | literalType (lit : LiteralTKind)
  | numberKeyword | bigIntKeyword | symbolKeyword
  | typeReference (name : EntityName) (refKind : TypeReferenceSerializationKind)
      (inConditionalTypeBranch : Bool)
  | intersectionType (types : List TypeNode)
  | unionType (types : List TypeNode)
  | conditionalType (trueType falseType : TypeNode)
  | typeOperator (op : TypeOperatorKind) (t : TypeNode)
  | typeQuery | indexedAccessType | mappedType | typeLiteral
  | anyKeyword | unknownKeyword | thisType | importType
  | jsDocAllType | jsDocUnknownType | jsDocFunctionType | jsDocVariadicType | jsDocNamepathType
  | jsDocNullableType (t : TypeNode) | jsDocNonNullableType (t : TypeNode)
  | jsDocOptionalType (t : TypeNode)
  deriving Repr

/-- An internal-consistency failure: `Debug.failBadSyntaxKind` /
`Debug.fail` abort the transform (spec §7). -/
inductive TransformFailure where
  | failBadSyntaxKind (description : String)
  deriving Repr, DecidableEq

/-- The compiler options the serializer consults. -/
structure SerializerConfig where
  strictNullChecks : Bool
  languageVersion : Nat
  deriving Repr, DecidableEq

/-- `serializeEntityNameAsExpression` (ts.ts lines 1743-1756): an identifier
becomes a (cloned) identifier reference, a qualified name a property-access
chain. -/
def serializeEntityNameAsExpression : EntityName → Expr
  | .ident s => .identE s
  | .qualified l r => .propertyAccess (serializeEntityNameAsExpression l) r

/-- `serializeEntityNameAsExpressionFallback` (ts.ts lines 1716-1736),
decomposed into the `.left`/`.right` parts of the `BinaryExpression` it
returns (the source destructures exactly these two fields in its recursive
case). -/
def serializeEntityNameAsExpressionFallbackParts : EntityName → Expr × Expr
  | .ident s =>
    (.strictInequality (.typeOfE (.identE s)) (.stringLiteral "undefined"), .identE s)
  | .qualified (.ident l) r =>
    (.strictInequality (.typeOfE (.identE l)) (.stringLiteral "undefined"),
     serializeEntityNameAsExpression (.qualified (.ident l) r))
  | .qualified l r =>
    let left := serializeEntityNameAsExpressionFallbackParts l
    (.logicalAnd left.1 (.strictInequality (.assignment .tempVar left.2) .voidZero),
     .propertyAccess .tempVar r)

/-- `serializeEntityNameAsExpressionFallback` as an expression:
`.logicalAnd` of the two parts (`createCheckedValue` in the base cases). -/
def serializeEntityNameAsExpressionFallback (e : EntityName) : Expr :=
  let p := serializeEntityNameAsExpressionFallbackParts e
  .logicalAnd p.1 p.2

/-- `getGlobalSymbolNameWithFallback` (ts.ts lines 1773-1781). -/
def getGlobalSymbolNameWithFallback : Expr :=
  .conditional (createTypeCheck (.identE "Symbol") "function")
    (.identE "Symbol") (.identE "Object")

/-- `getGlobalBigIntNameWithFallback` (ts.ts lines 1787-1797). -/
def getGlobalBigIntNameWithFallback (cfg : SerializerConfig) : Expr :=
  if cfg.languageVersion < ScriptTarget.ESNext then
    .conditional (createTypeCheck (.identE "BigInt") "function")
      (.identE "BigInt") (.identE "Object")
  else .identE "BigInt"

/-- `serializeTypeReferenceNode` (ts.ts lines 1646-1702), with the oracle
answers read off the node. The `Unknown` case's hoisted temp variable is
`Expr.tempVar`. -/
def serializeTypeReferenceNode (cfg : SerializerConfig) (name : EntityName)
    (refKind : TypeReferenceSerializationKind) (inConditionalTypeBranch : Bool) : Expr :=
  match refKind with
  | .unknown =>
    if inConditionalTypeBranch then .identE "Object"
    else
      let serialized := serializeEntityNameAsExpressionFallback name
      .conditional (createTypeCheck (.assignment .tempVar serialized) "function")
        .tempVar (.identE "Object")
  | .typeWithConstructSignatureAndValue => serializeEntityNameAsExpression name
  | .voidNullableOrNeverType => .voidZero
  | .bigIntLikeType => getGlobalBigIntNameWithFallback cfg
  | .booleanType => .identE "Boolean"
  | .numberLikeType => .identE "Number"
  | .stringLikeType => .identE "String"
  | .arrayLikeType => .identE "Array"
  | .esSymbolType =>
    if cfg.languageVersion < ScriptTarget.ES2015 then getGlobalSymbolNameWithFallback
    else .identE "Symbol"
  | .typeWithCallSignature => .identE "Function"
  | .promise => .identE "Promise"
  | .objectType => .identE "Object"

/-- The paren-skipping loop of `serializeTypeList` (ts.ts lines 1605-1607). -/
def stripParens : TypeNode → TypeNode
  | .parenthesizedType t => stripParens t
  | t => t

/-- `typeNode.kind === SyntaxKind.NeverKeyword`. -/
def isNeverKeyword : TypeNode → Bool
  | .neverKeyword => true
  | _ => false

/-- `typeNode.kind === SyntaxKind.LiteralType && literal.kind ===
SyntaxKind.NullKeyword`. -/
def isNullLiteralType : TypeNode → Bool
  | .literalType .nullKeyword => true
  | _ => false

/-- `typeNode.kind === SyntaxKind.UndefinedKeyword`. -/
def isUndefinedKeyword : TypeNode → Bool
  | .undefinedKeyword => true
  | _ => false

/-- `isIdentifier(e) && e.escapedText === "Object"`. -/
def isObjectIdentifier : Expr → Bool
  | .identE s => s == "Object"
  | _ => false

/-- `isIdentifier(e)`. -/
def isIdentifierE : Expr → Bool
  | .identE _ => true
  | _ => false

/-- `e.escapedText` of an identifier (empty for non-identifiers; only
consulted after an `isIdentifier` check, mirroring the source). -/
def identifierText : Expr → String
  | .identE s => s
  | _ => ""

mutual

/-- A termination measure for the mutual `serializeTypeNode` /
`serializeTypeList` recursion (the conditional-type case serializes the
freshly built list `[trueType, falseType]`, so the structural size alone
does not decrease). -/
def typeNodeWeight : TypeNode → Nat
  | .parenthesizedType t => typeNodeWeight t + 1
  | .typeOperator _ t => typeNodeWeight t + 1
  | .jsDocNullableType t => typeNodeWeight t + 1
  | .jsDocNonNullableType t => typeNodeWeight t + 1
  | .jsDocOptionalType t => typeNodeWeight t + 1
  | .unionType ts => typeNodeListWeight ts + 1
  | .intersectionType ts => typeNodeListWeight ts + 1
  | .conditionalType t f => typeNodeWeight t + typeNodeWeight f + 4
  | _ => 1

/-- List version of `typeNodeWeight`. -/
def typeNodeListWeight : List TypeNode → Nat
  | [] => 0
  | t :: rest => typeNodeWeight t + typeNodeListWeight rest + 1

end

mutual

/-- `serializeTypeNode` for a present node (ts.ts lines 1493-1597; the
`undefined` check of line 1489 is the wrapper `serializeTypeNode` below).
The `default` branches that call `Debug.failBadSyntaxKind` become
`.error`. -/
def serializeTypeNodeCore (cfg : SerializerConfig) : TypeNode → Except TransformFailure Expr
  | .voidKeyword => .ok .voidZero
  | .undefinedKeyword => .ok .voidZero
  | .neverKeyword => .ok .voidZero
  | .parenthesizedType t => serializeTypeNodeCore cfg t
  | .functionType => .ok (.identE "Function")
  | .constructorType => .ok (.identE "Function")
  | .arrayType => .ok (.identE "Array")
  | .tupleType => .ok (.identE "Array")
  | .typePredicate => .ok (.identE "Boolean")
  | .booleanKeyword => .ok (.identE "Boolean")
  | .stringKeyword => .ok (.identE "String")
  | .objectKeyword => .ok (.identE "Object")
  | .literalType lit =>
    match lit with
    | .stringLiteral => .ok (.identE "String")
    | .noSubstitutionTemplateLiteral => .ok (.identE "String")
    | .prefixUnaryExpression => .ok (.identE "Number")
    | .numericLiteral => .ok (.identE "Number")
    | .bigIntLiteral => .ok (getGlobalBigIntNameWithFallback cfg)
    | .trueKeyword => .ok (.identE "Boolean")
    | .falseKeyword => .ok (.identE "Boolean")
    | .nullKeyword => .ok .voidZero
    | .regularExpressionLiteral =>
      .error (.failBadSyntaxKind "literal kind outside the closed literal set")
  | .numberKeyword => .ok (.identE "Number")
  | .bigIntKeyword => .ok (getGlobalBigIntNameWithFallback cfg)
  | .symbolKeyword =>
    .ok (if cfg.languageVersion < ScriptTarget.ES2015 then getGlobalSymbolNameWithFallback
         else .identE "Symbol")
  | .typeReference name refKind inCond =>
    .ok (serializeTypeReferenceNode cfg name refKind inCond)
  | .intersectionType ts => serializeTypeList cfg ts none
  | .unionType ts => serializeTypeList cfg ts none
  | .conditionalType t f => serializeTypeList cfg [t, f] none
  | .typeOperator op t =>
    match op with
    | .readonlyOp => serializeTypeNodeCore cfg t
    | _ => .ok (.identE "Object")
  | .typeQuery => .ok (.identE "Object")
  | .indexedAccessType => .ok (.identE "Object")
  | .mappedType => .ok (.identE "Object")
  | .typeLiteral => .ok (.identE "Object")
  | .anyKeyword => .ok (.identE "Object")
  | .unknownKeyword => .ok (.identE "Object")
  | .thisType => .ok (.identE "Object")
  | .importType => .ok (.identE "Object")
  | .jsDocAllType => .ok (.identE "Object")
  | .jsDocUnknownType => .ok (.identE "Object")
  | .jsDocFunctionType => .ok (.identE "Object")
  | .jsDocVariadicType => .ok (.identE "Object")
  | .jsDocNamepathType => .ok (.identE "Object")
  | .jsDocNullableType t => serializeTypeNodeCore cfg t
  | .jsDocNonNullableType t => serializeTypeNodeCore cfg t
  | .jsDocOptionalType t => serializeTypeNodeCore cfg t
termination_by t => 2 * typeNodeWeight t
decreasing_by
  all_goals simp [typeNodeWeight, typeNodeListWeight]
  all_goals omega

/-- `serializeTypeList` (ts.ts lines 1600-1638), with the loop's
`serializedUnion` accumulator made explicit. Skip tests are performed on the
paren-stripped constituent; the constituent is then serialized unstripped —
definitionally the same result, because `serializeTypeNodeCore` itself
unwraps `ParenthesizedType`. -/
def serializeTypeList (cfg : SerializerConfig) :
    List TypeNode → Option Expr → Except TransformFailure Expr
  | [], serializedUnion => .ok (serializedUnion.getD .voidZero)
  | typeNode0 :: rest, serializedUnion =>
    let typeNode := stripParens typeNode0
    if isNeverKeyword typeNode then
      serializeTypeList cfg rest serializedUnion
    else if !cfg.strictNullChecks
        && (isNullLiteralType typeNode || isUndefinedKeyword typeNode) then
      serializeTypeList cfg rest serializedUnion
    else
      match serializeTypeNodeCore cfg typeNode0 with
      | .error e => .error e
      | .ok serializedIndividual =>
        if isObjectIdentifier serializedIndividual then .ok serializedIndividual
        else
          match serializedUnion with
          | some u =>
            if !isIdentifierE u || !isIdentifierE serializedIndividual
                || identifierText u != identifierText serializedIndividual then
              .ok (.identE "Object")
            else serializeTypeList cfg rest serializedUnion
          | none => serializeTypeList cfg rest (some serializedIndividual)
termination_by types _ => 2 * typeNodeListWeight types + 1
decreasing_by
  all_goals simp [typeNodeWeight, typeNodeListWeight]
  all_goals omega

end

/-- `serializeTypeNode` including the `node === undefined` entry check
(ts.ts lines 1488-1491). -/
def serializeTypeNode (cfg : SerializerConfig) :
    Option TypeNode → Except TransformFailure Expr
  | none => .ok (.identE "Object")
  | some t => serializeTypeNodeCore cfg t

mutual

/-- A type node is well formed when every node kind reachable by the
serializer's recursion lies inside the closed sets its switches handle —
i.e. no `LiteralTypeNode` anywhere carries a literal kind outside the
closed literal set. -/
def TypeNode.wf : TypeNode → Bool
  | .literalType lit => lit != LiteralTKind.regularExpressionLiteral
  | .parenthesizedType t => t.wf
  | .typeOperator _ t => t.wf
  | .jsDocNullableType t => t.wf
  | .jsDocNonNullableType t => t.wf
  | .jsDocOptionalType t => t.wf
  | .unionType ts => typeNodeListWf ts
  | .intersectionType ts => typeNodeListWf ts
  | .conditionalType t f => t.wf && f.wf
  | _ => true

/-- List version of `TypeNode.wf`. -/
def typeNodeListWf : List TypeNode → Bool
  | [] => true
  | t :: rest => t.wf && typeNodeListWf rest

end

/-- The fixed set of runtime-representable forms the serializer produces:
`void 0`, a constructor identifier, a feature-tested/checked conditional,
a property-access entity reference, or a checked (`&&`-chained) entity
reference. -/
def isSerializedForm : Expr → Bool
  | .voidZero => true
  | .identE _ => true
  | .conditional _ _ _ => true
  | .logicalAnd _ _ => true
  | .propertyAccess _ _ => true
  | _ => false

/-- `isIdentifier(e)` on serialized forms. -/
def isIdentE : Expr → Bool
  | .identE _ => true
  | _ => false

/-- A constituent that `serializeTypeList` skips (after unwrapping its
parenthesized wrappers): `never` always, and `null`/`undefined` exactly
when strict-null-checking is off (ts.ts lines 1608-1613). -/
def skippedConstituent (strict : Bool) (t : TypeNode) : Bool :=
  isNeverKeyword (stripParens t)
    || (!strict && (isNullLiteralType (stripParens t) || isUndefinedKeyword (stripParens t)))

/-- The constituents of a union/intersection that `serializeTypeList`
actually serializes (each still carrying its parenthesized wrappers, which
`serializeTypeNode` itself unwraps). -/
def remainingConstituents (strict : Bool) (types : List TypeNode) : List TypeNode :=
  types.filter (fun t => !skippedConstituent strict t)

/-! ## Theorems -/

/-- Generic list fact used to count produced decorate statements. -/
theorem length_filterMap_eq_length_filter {α β : Type} (f : α → Option β) (l : List α) :
    (l.filterMap f).length = (l.filter (fun x => (f x).isSome)).length := by
  induction l with
  | nil => rfl
  | cons x xs ih =>
    cases h : f x <;> simp [List.filterMap_cons, List.filter_cons, h, ih]

/-- Bitmask fact: setting the `NonQualifiedEnumMembers` flag makes the
flag test succeed. -/
theorem lor_eight_land_eight_ne_zero (a : Nat) : (a ||| 8) &&& 8 ≠ 0 := by
  have hbit : (a ||| 2 ^ 3).testBit 3 = true := by
    rw [Nat.testBit_lor]
    refine Bool.or_eq_true_iff.mpr (Or.inr (by decide))
  have h8 : (8 : Nat) = 2 ^ 3 := by norm_num
  rw [h8, Nat.and_two_pow, hbit]
  simp

/-- C9: for every source file flagged as a declaration file,
`transformSourceFile` returns the input node itself, unchanged, with no
visitor run and no emit helpers attached. -/
theorem transformSourceFile_declarationFile_id
    (visit : SourceFileModel → SourceFileModel) (node : SourceFileModel)
    (h : node.isDeclarationFile = true) :
    transformSourceFile visit node =
      { output := node, visitorRan := false, emitHelpersAdded := false } := by
  simp [transformSourceFile, h]

/-- Witness for C9 at a concrete declaration file. -/
theorem transformSourceFile_declarationFile_id_witness :
    transformSourceFile id ⟨0, true, 7⟩ =
      { output := ⟨0, true, 7⟩, visitorRan := false, emitHelpersAdded := false } :=
  transformSourceFile_declarationFile_id id ⟨0, true, 7⟩ rfl

/-- C2: `transformEnumMember` produces a single expression statement whose
expression is the forward assignment `container[name] = value` alone when
the lowered value expression is a string literal, and the combined
forward-plus-reverse assignment
`container[container[name] = value] = name` otherwise; in both cases the
forward assignment occurs inside the produced expression. -/
theorem transformEnumMember_forward_reverse (container : Expr)
    (member : EnumMemberModel) (s : SubstState) :
    (transformEnumMember container member s).1 =
      .exprStatement
        (if (transformEnumMemberDeclarationValue member s).1.isStringLiteralKind then
          Expr.assignment (.elementAccess container member.nameExpr)
            (transformEnumMemberDeclarationValue member s).1
        else
          Expr.assignment
            (.elementAccess container
              (Expr.assignment (.elementAccess container member.nameExpr)
                (transformEnumMemberDeclarationValue member s).1))
            member.nameExpr) ∧
    (if (transformEnumMemberDeclarationValue member s).1.isStringLiteralKind then
        Expr.assignment (.elementAccess container member.nameExpr)
          (transformEnumMemberDeclarationValue member s).1
      else
        Expr.assignment
          (.elementAccess container
            (Expr.assignment (.elementAccess container member.nameExpr)
              (transformEnumMemberDeclarationValue member s).1))
          member.nameExpr).containsSub
      (Expr.assignment (.elementAccess container member.nameExpr)
        (transformEnumMemberDeclarationValue member s).1) = true := by
  constructor
  · simp only [transformEnumMember]
  · split <;> simp [Expr.containsSub]

/-- C10: for an enum member with no oracle constant value and no
initializer, the value lowers to `void 0` (after enabling the
non-qualified-enum-member substitution class), and since `void 0` is not a
string literal the member's statement carries both the forward assignment
and the reverse mapping. -/
theorem transformEnumMember_no_constant_no_initializer (container : Expr)
    (member : EnumMemberModel) (s : SubstState)
    (hcv : member.constantValue = none)
    (hinit : member.loweredInitializer = none) :
    (transformEnumMemberDeclarationValue member s).1 = .voidZero ∧
    (transformEnumMemberDeclarationValue member s).2.enabledSubstitutions
        &&& SubstFlag.NonQualifiedEnumMembers ≠ 0 ∧
    (transformEnumMember container member s).1 =
      .exprStatement
        (Expr.assignment
          (.elementAccess container
            (Expr.assignment (.elementAccess container member.nameExpr) .voidZero))
          member.nameExpr) := by
  refine ⟨?_, ?_, ?_⟩
  · simp [transformEnumMemberDeclarationValue, hcv, hinit]
  · simp only [transformEnumMemberDeclarationValue, hcv, hinit,
      enableSubstitutionForNonQualifiedEnumMembers]
    split
    · rename_i h
      exact lor_eight_land_eight_ne_zero _
    · rename_i h
      simpa [SubstFlag.NonQualifiedEnumMembers] using h
  · simp [transformEnumMember, transformEnumMemberDeclarationValue, hcv, hinit,
      Expr.isStringLiteralKind]

/-- Witness for C10 at a concrete member with neither constant value nor
initializer. -/
theorem transformEnumMember_no_constant_no_initializer_witness :
    (transformEnumMemberDeclarationValue ⟨.stringLiteral "A", none, none⟩ ⟨0, []⟩).1 =
        .voidZero ∧
    (transformEnumMemberDeclarationValue ⟨.stringLiteral "A", none, none⟩
        ⟨0, []⟩).2.enabledSubstitutions &&& SubstFlag.NonQualifiedEnumMembers ≠ 0 ∧
    (transformEnumMember (.identE "E") ⟨.stringLiteral "A", none, none⟩ ⟨0, []⟩).1 =
      .exprStatement
        (Expr.assignment
          (.elementAccess (.identE "E")
            (Expr.assignment
              (.elementAccess (.identE "E") (.stringLiteral "A")) .voidZero))
          (.stringLiteral "A")) :=
  transformEnumMember_no_constant_no_initializer (.identE "E")
    ⟨.stringLiteral "A", none, none⟩ ⟨0, []⟩ rfl rfl

/-- C8 counterexample: a get accessor with a missing body and no `abstract`
modifier is *not* elided — `visitGetAccessor` emits it with a synthesized
empty block body, contradicting the claim that non-abstract bodyless
accessors are elided entirely. -/
theorem visitGetAccessor_bodyless_nonabstract_emitted :
    (⟨0, false, false⟩ : FnLikeNode).bodyPresent = false ∧
    (⟨0, false, false⟩ : FnLikeNode).isAbstract = false ∧
    visitGetAccessor ⟨0, false, false⟩ = .emitted .emptyBlock := by
  refine ⟨rfl, rfl, ?_⟩
  rfl

/-- C8 amended: constructors and methods are elided exactly when the body is
missing; a bodyless function declaration becomes a `NotEmittedStatement`
and a bodyless function expression an `OmittedExpression`; accessors are
elided exactly when the body is missing *and* the accessor is abstract, and
a non-abstract bodyless accessor is emitted with an empty block body. -/
theorem bodyless_declaration_elision (n : FnLikeNode) :
    (visitConstructor n = .elided ↔ n.bodyPresent = false) ∧
    (visitMethodDeclaration n = .elided ↔ n.bodyPresent = false) ∧
    (visitFunctionDeclaration n = .notEmittedStatement ↔ n.bodyPresent = false) ∧
    (visitFunctionExpression n = .omittedExpression ↔ n.bodyPresent = false) ∧
    (visitGetAccessor n = .elided ↔ (n.bodyPresent = false ∧ n.isAbstract = true)) ∧
    (visitSetAccessor n = .elided ↔ (n.bodyPresent = false ∧ n.isAbstract = true)) ∧
    (n.bodyPresent = false → n.isAbstract = false →
      visitGetAccessor n = .emitted .emptyBlock ∧
      visitSetAccessor n = .emitted .emptyBlock) := by
  obtain ⟨id, bp, abs⟩ := n
  cases bp <;> cases abs <;>
    simp [visitConstructor, visitMethodDeclaration, visitFunctionDeclaration,
      visitFunctionExpression, visitGetAccessor, visitSetAccessor,
      shouldEmitFunctionLikeDeclaration, shouldEmitAccessorDeclaration,
      visitFunctionBody]

/-- Witness for the amended C8 at a concrete bodyless non-abstract
accessor. -/
theorem bodyless_declaration_elision_witness :
    visitGetAccessor ⟨5, false, false⟩ = .emitted .emptyBlock ∧
    visitConstructor ⟨5, false, false⟩ = .elided :=
  ⟨((bodyless_declaration_elision ⟨5, false, false⟩).2.2.2.2.2.2 rfl rfl).1,
   (bodyless_declaration_elision ⟨5, false, false⟩).1.mpr rfl⟩

/-- C4 counterexample: visiting a named class declaration (not a
scope-introducing node, so the scope frame does not change) records the
class name into the current scope's merge map, and `saveStateAndInvoke`
keeps the updated map — it is *not* restored to the captured value (`none`),
contradicting the claim's "when the scope frame did not change the
merge-map is restored to the captured value". -/
theorem saveStateAndInvoke_unchanged_scope_keeps_merge_map :
    (onBeforeVisitNode ⟨2, .classDeclaration, false, some "C"⟩
        ⟨⟨0, .sourceFile⟩, none, none, none⟩).currentLexicalScope =
      (⟨⟨0, .sourceFile⟩, none, none, none⟩ : TransformState).currentLexicalScope ∧
    (⟨⟨0, .sourceFile⟩, none, none, none⟩ : TransformState).currentScopeFirstDeclarationsOfName
      = none ∧
    (saveStateAndInvoke ⟨2, .classDeclaration, false, some "C"⟩
        (fun s => (s, ())) ⟨⟨0, .sourceFile⟩, none, none, none⟩).1.currentScopeFirstDeclarationsOfName
      = some [("C", 2)] := by
  refine ⟨rfl, rfl, ?_⟩
  rfl

/-- C4 amended: around every `saveStateAndInvoke` visit, the lexical scope,
name scope, and has-parameter-properties flag are restored to their
captured values; the merge map is restored to the captured value exactly
when the lexical scope changed during the visit, and keeps its current
(possibly updated) value when the scope did not change. -/
theorem saveStateAndInvoke_state_discipline {α : Type} (node : VNode)
    (f : TransformState → TransformState × α) (s : TransformState) :
    (saveStateAndInvoke node f s).1.currentLexicalScope = s.currentLexicalScope ∧
    (saveStateAndInvoke node f s).1.currentNameScope = s.currentNameScope ∧
    (saveStateAndInvoke node f s).1.currentClassHasParameterProperties =
      s.currentClassHasParameterProperties ∧
    ((f (onBeforeVisitNode node s)).1.currentLexicalScope ≠ s.currentLexicalScope →
      (saveStateAndInvoke node f s).1.currentScopeFirstDeclarationsOfName =
        s.currentScopeFirstDeclarationsOfName) ∧
    ((f (onBeforeVisitNode node s)).1.currentLexicalScope = s.currentLexicalScope →
      (saveStateAndInvoke node f s).1.currentScopeFirstDeclarationsOfName =
        (f (onBeforeVisitNode node s)).1.currentScopeFirstDeclarationsOfName) := by
  rcases hf : f (onBeforeVisitNode node s) with ⟨s2, v⟩
  by_cases h : s2.currentLexicalScope = s.currentLexicalScope <;>
    simp [saveStateAndInvoke, hf, h]

/-- Witness for the amended C4: visiting a block (a scope-introducing node)
restores the captured merge map. -/
theorem saveStateAndInvoke_state_discipline_witness :
    (saveStateAndInvoke ⟨1, .block, false, none⟩ (fun s => (s, ()))
        ⟨⟨0, .sourceFile⟩, some 9, some [("x", 3)], some true⟩).1.currentScopeFirstDeclarationsOfName
      = some [("x", 3)] ∧
    (saveStateAndInvoke ⟨1, .block, false, none⟩ (fun s => (s, ()))
        ⟨⟨0, .sourceFile⟩, some 9, some [("x", 3)], some true⟩).1.currentLexicalScope
      = ⟨0, .sourceFile⟩ :=
  ⟨(saveStateAndInvoke_state_discipline ⟨1, .block, false, none⟩ (fun s => (s, ()))
      ⟨⟨0, .sourceFile⟩, some 9, some [("x", 3)], some true⟩).2.2.2.1 (by decide),
   (saveStateAndInvoke_state_discipline ⟨1, .block, false, none⟩ (fun s => (s, ()))
      ⟨⟨0, .sourceFile⟩, some 9, some [("x", 3)], some true⟩).1⟩

/-- Recording a fresh name makes it look up to the recording node. -/
theorem mergeMapGet_append_self (m : List (String × Nat)) (name : String) (id : Nat)
    (h : mergeMapHas m name = false) :
    mergeMapGet (m ++ [(name, id)]) name = some id := by
  induction m with
  | nil => simp [mergeMapGet, List.find?]
  | cons x xs ih =>
    simp only [mergeMapHas, List.any_cons, Bool.or_eq_false_iff] at h
    simp only [mergeMapGet, List.cons_append, List.find?, h.1]
    exact ih (by simp [mergeMapHas, h.2])

/-- A recorded name is present. -/
theorem mergeMapHas_append_self (m : List (String × Nat)) (name : String) (id : Nat) :
    mergeMapHas (m ++ [(name, id)]) name = true := by
  induction m with
  | nil => simp [mergeMapHas]
  | cons x xs ih => simp only [mergeMapHas, List.cons_append, List.any_cons] at *
                    simp [ih]

/-- `addVarForEnumOrModuleDeclaration` on the first declaration of a name in
the current scope: pushes the plain variable statement and returns `true`,
recording the name. -/
theorem addVarForEnumOrModuleDeclaration_first (node : EnumOrModuleNode)
    (s : TransformState)
    (h : mergeMapHas (s.currentScopeFirstDeclarationsOfName.getD []) node.name = false) :
    addVarForEnumOrModuleDeclaration node s =
      ([.varBinding node.name (s.currentLexicalScope.kind != VNodeKind.sourceFile)], true,
       { s with
         currentScopeFirstDeclarationsOfName :=
           some ((s.currentScopeFirstDeclarationsOfName.getD [])
             ++ [(node.name, node.id)]) }) := by
  have hrec : recordEmittedDeclarationInScope node.name node.id s =
      { s with
        currentScopeFirstDeclarationsOfName :=
          some ((s.currentScopeFirstDeclarationsOfName.getD [])
            ++ [(node.name, node.id)]) } := by
    simp [recordEmittedDeclarationInScope, h]
  have hfirst : isFirstEmittedDeclarationInScope node.name node.id
      ({ s with
         currentScopeFirstDeclarationsOfName :=
           some ((s.currentScopeFirstDeclarationsOfName.getD [])
             ++ [(node.name, node.id)]) }) = true := by
    simp [isFirstEmittedDeclarationInScope, mergeMapGet_append_self _ _ _ h]
  simp [addVarForEnumOrModuleDeclaration, hrec, hfirst]

/-- `addVarForEnumOrModuleDeclaration` on a merging (second) declaration of
a name: pushes only the `MergeDeclarationMarker` and returns `false`,
leaving the merge map unchanged. -/
theorem addVarForEnumOrModuleDeclaration_merge (node : EnumOrModuleNode)
    (s : TransformState) (m : List (String × Nat)) (otherId : Nat)
    (hm : s.currentScopeFirstDeclarationsOfName = some m)
    (hget : mergeMapGet m node.name = some otherId)
    (hne : otherId ≠ node.id) :
    addVarForEnumOrModuleDeclaration node s =
      ([.mergeMarker node.name (s.currentLexicalScope.kind != VNodeKind.sourceFile)],
       false, s) := by
  have hhas : mergeMapHas m node.name = true := by
    unfold mergeMapGet at hget
    obtain ⟨q, hq, _⟩ := Option.map_eq_some'.mp hget
    have hpq := List.find?_some hq
    unfold mergeMapHas
    exact List.any_eq_true.mpr ⟨q, List.mem_of_find?_eq_some hq, hpq⟩
  have hrec : recordEmittedDeclarationInScope node.name node.id s = s := by
    have hs : ({ s with currentScopeFirstDeclarationsOfName := some m } :
        TransformState) = s := by
      cases s
      simp_all
    simp [recordEmittedDeclarationInScope, hm, hhas, hs]
  have hfirst : isFirstEmittedDeclarationInScope node.name node.id s = false := by
    simp only [isFirstEmittedDeclarationInScope, hm, hget]
    simp [hne]
  simp [addVarForEnumOrModuleDeclaration, hrec, hfirst]

/-- C3: lowering two same-named (non-const) enum declarations in the same
scope: the first gets the leading variable-binding statement
(`addVarForEnumOrModuleDeclaration` returns `true`), the second a
merge-marker that does not re-declare the binding (returns `false`); each
still gets its own invocation-wrapped closure, and both closures are called
with the same `exportName || (exportName = {})` argument. -/
theorem two_enum_declarations_merge (ctx : LowerContext)
    (d1 d2 : EnumOrModuleNode) (s : TransformState) (subst : SubstState)
    (hname : d1.name = d2.name)
    (hid : d1.id ≠ d2.id)
    (hexp : d1.exported = d2.exported)
    (hconst1 : d1.isConst = false)
    (hconst2 : d2.isConst = false)
    (hfresh : mergeMapHas (s.currentScopeFirstDeclarationsOfName.getD []) d1.name = false) :
    (visitEnumDeclaration ctx d1 s subst).1 =
      [.varBinding d1.name (s.currentLexicalScope.kind != VNodeKind.sourceFile),
       .enumOrModuleClosure (generatedNameForNode d1)
         (transformEnumBody d1.members (generatedNameForNode d1) subst).1
         (if hasNamespaceQualifiedExportName ctx d1 then
            Expr.assignment (getLocalName d1)
              (Expr.logicalOr
                (if d1.exported then externalModuleOrNamespaceExportName ctx d1
                 else getLocalName d1)
                (.assignment
                  (if d1.exported then externalModuleOrNamespaceExportName ctx d1
                   else getLocalName d1) .objectLiteral))
          else
            Expr.logicalOr
              (if d1.exported then externalModuleOrNamespaceExportName ctx d1
               else getLocalName d1)
              (.assignment
                (if d1.exported then externalModuleOrNamespaceExportName ctx d1
                 else getLocalName d1) .objectLiteral)),
       .endOfDeclarationMarker] ∧
    (visitEnumDeclaration ctx d2 ((visitEnumDeclaration ctx d1 s subst).2.1)
        ((visitEnumDeclaration ctx d1 s subst).2.2)).1 =
      [.mergeMarker d2.name (s.currentLexicalScope.kind != VNodeKind.sourceFile),
       .enumOrModuleClosure (generatedNameForNode d2)
         (transformEnumBody d2.members (generatedNameForNode d2)
           ((visitEnumDeclaration ctx d1 s subst).2.2)).1
         (if hasNamespaceQualifiedExportName ctx d1 then
            Expr.assignment (getLocalName d1)
              (Expr.logicalOr
                (if d1.exported then externalModuleOrNamespaceExportName ctx d1
                 else getLocalName d1)
                (.assignment
                  (if d1.exported then externalModuleOrNamespaceExportName ctx d1
                   else getLocalName d1) .objectLiteral))
          else
            Expr.logicalOr
              (if d1.exported then externalModuleOrNamespaceExportName ctx d1
               else getLocalName d1)
              (.assignment
                (if d1.exported then externalModuleOrNamespaceExportName ctx d1
                 else getLocalName d1) .objectLiteral)),
       .endOfDeclarationMarker] ∧
    (addVarForEnumOrModuleDeclaration d1 s).2.1 = true ∧
    (addVarForEnumOrModuleDeclaration d2 ((visitEnumDeclaration ctx d1 s subst).2.1)).2.1
      = false := by
  have hadd1 := addVarForEnumOrModuleDeclaration_first d1 s hfresh
  have harg2 : (fun (d : EnumOrModuleNode) =>
      (if d.exported then externalModuleOrNamespaceExportName ctx d
       else getLocalName d)) d2 =
      (if d1.exported then externalModuleOrNamespaceExportName ctx d1
       else getLocalName d1) := by
    simp only [externalModuleOrNamespaceExportName, getLocalName, ← hname, ← hexp]
  have hq2 : hasNamespaceQualifiedExportName ctx d2 = hasNamespaceQualifiedExportName ctx d1 := by
    simp only [hasNamespaceQualifiedExportName, isExportOfNamespace, isExternalModuleExport,
      ← hexp]
  have hlocal2 : getLocalName d2 = getLocalName d1 := by
    simp only [getLocalName, ← hname]
  have hr1 : visitEnumDeclaration ctx d1 s subst =
      ([.varBinding d1.name (s.currentLexicalScope.kind != VNodeKind.sourceFile),
        .enumOrModuleClosure (generatedNameForNode d1)
          (transformEnumBody d1.members (generatedNameForNode d1) subst).1
          (if hasNamespaceQualifiedExportName ctx d1 then
             Expr.assignment (getLocalName d1)
               (Expr.logicalOr
                 (if d1.exported then externalModuleOrNamespaceExportName ctx d1
                  else getLocalName d1)
                 (.assignment
                   (if d1.exported then externalModuleOrNamespaceExportName ctx d1
                    else getLocalName d1) .objectLiteral))
           else
             Expr.logicalOr
               (if d1.exported then externalModuleOrNamespaceExportName ctx d1
                else getLocalName d1)
               (.assignment
                 (if d1.exported then externalModuleOrNamespaceExportName ctx d1
                  else getLocalName d1) .objectLiteral)),
        .endOfDeclarationMarker],
       { s with
         currentScopeFirstDeclarationsOfName :=
           some ((s.currentScopeFirstDeclarationsOfName.getD [])
             ++ [(d1.name, d1.id)]) },
       (transformEnumBody d1.members (generatedNameForNode d1) subst).2) := by
    simp [visitEnumDeclaration, shouldEmitEnumDeclaration, hconst1, hadd1]
  have hs1 : (visitEnumDeclaration ctx d1 s subst).2.1 =
      { s with
        currentScopeFirstDeclarationsOfName :=
          some ((s.currentScopeFirstDeclarationsOfName.getD [])
            ++ [(d1.name, d1.id)]) } := by
    rw [hr1]
  have hadd2 := addVarForEnumOrModuleDeclaration_merge d2
      ({ s with
         currentScopeFirstDeclarationsOfName :=
           some ((s.currentScopeFirstDeclarationsOfName.getD [])
             ++ [(d1.name, d1.id)]) })
      ((s.currentScopeFirstDeclarationsOfName.getD []) ++ [(d1.name, d1.id)]) d1.id
      rfl (by rw [← hname]; exact mergeMapGet_append_self _ _ _ hfresh) hid
  refine ⟨by rw [hr1], ?_, by rw [hadd1], ?_⟩
  · rw [hs1]
    simp only [hq2] at hadd2
    simp [visitEnumDeclaration, shouldEmitEnumDeclaration, hconst2, hadd2, hq2, hlocal2]
    simp only [← hexp, ← hname, externalModuleOrNamespaceExportName, getLocalName]
  · rw [hs1, hadd2]

/-- Witness for C3 at two concrete same-named enum declarations lowered at
source-file scope. -/
theorem two_enum_declarations_merge_witness :
    (addVarForEnumOrModuleDeclaration ⟨1, "N", false, false, []⟩
      ⟨⟨0, .sourceFile⟩, none, none, none⟩).2.1 = true ∧
    (addVarForEnumOrModuleDeclaration ⟨2, "N", false, false, []⟩
      ((visitEnumDeclaration ⟨1, none, false⟩ ⟨1, "N", false, false, []⟩
        ⟨⟨0, .sourceFile⟩, none, none, none⟩ ⟨0, []⟩).2.1)).2.1 = false :=
  ⟨(two_enum_declarations_merge ⟨1, none, false⟩ ⟨1, "N", false, false, []⟩
      ⟨2, "N", false, false, []⟩ ⟨⟨0, .sourceFile⟩, none, none, none⟩ ⟨0, []⟩
      rfl (by decide) rfl rfl rfl rfl).2.2.1,
   (two_enum_declarations_merge ⟨1, none, false⟩ ⟨1, "N", false, false, []⟩
      ⟨2, "N", false, false, []⟩ ⟨⟨0, .sourceFile⟩, none, none, none⟩ ⟨0, []⟩
      rfl (by decide) rfl rfl rfl rfl).2.2.2⟩

/-- The constructor-decorator bit of `getClassFacts` is set exactly when the
class or its (first bodied) constructor's parameters are decorated. -/
theorem getClassFacts_hasConstructorDecorators_bit (v : Nat) (ns : Bool)
    (node : ClassModel) (sp : List ClassMember) :
    ((getClassFacts v ns node sp &&& ClassFacts.HasConstructorDecorators != 0) : Bool) =
      classOrConstructorParameterIsDecorated node := by
  simp only [getClassFacts]
  generalize (sp != []) = b1
  generalize node.extendsNonNull = b2
  generalize classOrConstructorParameterIsDecorated node = b3
  generalize childIsDecorated node = b4
  generalize classIsExportOfNamespace ns node = c1
  generalize classIsDefaultExternalModuleExport ns node = c2
  generalize classIsNamedExternalModuleExport ns node = c3
  generalize (decide (v ≤ ScriptTarget.ES5)) = c4
  cases b1 <;> cases b2 <;> cases b3 <;> cases b4 <;>
    cases c1 <;> cases c2 <;> cases c3 <;> cases c4 <;> decide

/-- If the class has no TypeScript class syntax, nothing about it or its
constructor parameters is decorated. -/
theorem no_ts_syntax_no_ctor_decorators (node : ClassModel)
    (h : isClassLikeDeclarationWithTypeScriptSyntax node = false) :
    classOrConstructorParameterIsDecorated node = false := by
  simp only [isClassLikeDeclarationWithTypeScriptSyntax, Bool.or_eq_false_iff] at h
  obtain ⟨⟨⟨hdec, _⟩, _⟩, hany⟩ := h
  simp only [classOrConstructorParameterIsDecorated, hdec, Bool.false_or]
  cases hf : getFirstConstructorWithBody node with
  | none => rfl
  | some c =>
    have hc : c ∈ node.members := List.mem_of_find?_eq_some hf
    have hts := List.any_eq_false.mp hany c hc
    simp only [Bool.not_eq_true] at hts
    simp only [memberHasTSClassSyntax, Bool.or_eq_false_iff] at hts
    exact hts.1.1.2

/-- C7 counterexample: a class carrying the constructor-self-reference
marker and a static initialized property, lowered for ES5 (so the IIFE
wrapper is required) but with no decorators anywhere: the claim predicts a
class-alias entry, yet none is created — `getClassAliasIfNeeded` is only
reached through `createClassDeclarationHeadWithDecorators`, i.e. when the
constructor is decorated. -/
theorem classAlias_iife_without_ctor_decorators_not_created :
    (visitClassDeclarationCore 1 false
        ⟨0, some "C",
         [⟨.propertyDeclaration, "x", true, false, false, false, true, false⟩],
         false, false, false, false, false, false, true⟩).facts
      &&& ClassFacts.UseImmediatelyInvokedFunctionExpression ≠ 0 ∧
    classOrConstructorParameterIsDecorated
        ⟨0, some "C",
         [⟨.propertyDeclaration, "x", true, false, false, false, true, false⟩],
         false, false, false, false, false, false, true⟩ = false ∧
    (⟨0, some "C",
      [⟨.propertyDeclaration, "x", true, false, false, false, true, false⟩],
      false, false, false, false, false, false, true⟩ : ClassModel).hasConstructorReference
      = true ∧
    (visitClassDeclarationCore 1 false
        ⟨0, some "C",
         [⟨.propertyDeclaration, "x", true, false, false, false, true, false⟩],
         false, false, false, false, false, false, true⟩).aliasCreated = false := by
  decide

/-- C7 amended: a class-alias entry is created if and only if the class both
carries the constructor-self-reference marker and has constructor
decorators (decorators on the class itself or on the parameters of its
first bodied constructor) — the IIFE wrapper alone never triggers an
alias. -/
theorem classAliasEntry_created_iff (v : Nat) (ns : Bool) (node : ClassModel) :
    (visitClassDeclarationCore v ns node).aliasCreated =
      (classOrConstructorParameterIsDecorated node && node.hasConstructorReference) := by
  unfold visitClassDeclarationCore
  split
  · rename_i h
    simp only [Bool.and_eq_true, Bool.not_eq_true'] at h
    rw [no_ts_syntax_no_ctor_decorators node h.1]
    rfl
  · simp only
    rw [getClassFacts_hasConstructorDecorators_bit]
    cases hb : classOrConstructorParameterIsDecorated node <;>
      cases hcr : node.hasConstructorReference <;>
        simp [getClassAliasIfNeeded, hcr]

/-- Constructor decorators are collected exactly when the class or its first
bodied constructor's parameters are decorated. -/
theorem getAllDecoratorsOfConstructor_isSome (node : ClassModel) :
    (getAllDecoratorsOfConstructor node).isSome =
      classOrConstructorParameterIsDecorated node := by
  unfold getAllDecoratorsOfConstructor classOrConstructorParameterIsDecorated
  cases getFirstConstructorWithBody node with
  | none => cases hcd : node.classDecorators <;> simp [hcd]
  | some c =>
    cases hcd : node.classDecorators <;> cases hp : c.paramHasDecorators <;>
      simp [hcd, hp]

/-- The class-alias marker is produced exactly for classes with a
constructor self-reference. -/
theorem getClassAliasIfNeeded_isSome (node : ClassModel) :
    (getClassAliasIfNeeded node).isSome = node.hasConstructorReference := by
  unfold getClassAliasIfNeeded
  cases node.hasConstructorReference <;> simp

/-- A member decoration statement exists exactly when the member's
decorators are collectible. -/
theorem generateClassElementDecorationExpression_isSome (node : ClassModel)
    (idx : Nat) (m : ClassMember) :
    (generateClassElementDecorationExpression node idx m).isSome =
      (getAllDecoratorsOfClassElement node.members idx m).isSome := by
  unfold generateClassElementDecorationExpression
  cases getAllDecoratorsOfClassElement node.members idx m <;> simp

/-- C1 counterexample: a class with a class-level decorator and one
decorated *bodyless* instance method. The member counts as a decorated
instance member, yet no decorate-call statement is produced for it
(`getAllDecoratorsOfMethod` returns `undefined` for a bodyless method), so
the emitted sequence is just [class binding, constructor decorate] — not
one statement per decorated instance member as the claim requires. -/
theorem visitClassDeclaration_bodyless_decorated_method_no_statement :
    childIsDecorated
        ⟨0, some "C",
         [⟨.methodDeclaration, "m", false, true, false, false, false, false⟩],
         true, false, false, false, false, false, false⟩ = true ∧
    classOrConstructorParameterIsDecorated
        ⟨0, some "C",
         [⟨.methodDeclaration, "m", false, true, false, false, false, false⟩],
         true, false, false, false, false, false, false⟩ = true ∧
    (getDecoratedClassElements
        ⟨0, some "C",
         [⟨.methodDeclaration, "m", false, true, false, false, false, false⟩],
         true, false, false, false, false, false, false⟩ false).length = 1 ∧
    (visitClassDeclarationCore 2 false
        ⟨0, some "C",
         [⟨.methodDeclaration, "m", false, true, false, false, false, false⟩],
         true, false, false, false, false, false, false⟩).stmts =
      [ClassStmt.classHead true false, ClassStmt.ctorDecorate false] ∧
    ((visitClassDeclarationCore 2 false
        ⟨0, some "C",
         [⟨.methodDeclaration, "m", false, true, false, false, false, false⟩],
         true, false, false, false, false, false, false⟩).stmts.countP
      (fun st => match st with
        | ClassStmt.memberDecorate _ _ => true
        | _ => false)) = 0 := by
  decide

/-- C1 amended: for a class with constructor decorators, the assembled
statement sequence is exactly [class binding statement, decorate-call
statements for the decorated *instance* members whose decorators are
collectible (in member order), the same for *static* members, the single
constructor decorate statement (alias-assigning when a class alias
exists)]; every statement of the first group targets an instance member and
every statement of the second a static member, and each group has exactly
one statement per decorated member whose decorator collection succeeds
(bodyless methods/accessors and non-first accessors of a decorated pair
yield none). -/
theorem visitClassDeclaration_decoration_statement_order (v : Nat) (ns : Bool)
    (node : ClassModel)
    (hc : classOrConstructorParameterIsDecorated node = true) :
    (visitClassDeclarationCore v ns node).stmts =
      [ClassStmt.classHead true node.hasConstructorReference]
        ++ classElementDecorationStatements node false
        ++ classElementDecorationStatements node true
        ++ [ClassStmt.ctorDecorate node.hasConstructorReference] ∧
    (∀ st ∈ classElementDecorationStatements node false,
      ∃ nm, st = ClassStmt.memberDecorate false nm) ∧
    (∀ st ∈ classElementDecorationStatements node true,
      ∃ nm, st = ClassStmt.memberDecorate true nm) ∧
    (classElementDecorationStatements node false).length =
      ((getDecoratedClassElements node false).filter
        (fun p => (getAllDecoratorsOfClassElement node.members p.1 p.2).isSome)).length ∧
    (classElementDecorationStatements node true).length =
      ((getDecoratedClassElements node true).filter
        (fun p => (getAllDecoratorsOfClassElement node.members p.1 p.2).isSome)).length := by
  have hts : isClassLikeDeclarationWithTypeScriptSyntax node = true := by
    cases h : isClassLikeDeclarationWithTypeScriptSyntax node with
    | false => rw [no_ts_syntax_no_ctor_decorators node h] at hc; exact absurd hc (by simp)
    | true => rfl
  have hmem : ∀ (isStatic : Bool), ∀ st ∈ classElementDecorationStatements node isStatic,
      ∃ nm, st = ClassStmt.memberDecorate isStatic nm := by
    intro isStatic st hst
    obtain ⟨p, hp, hgen⟩ := List.mem_filterMap.mp hst
    have hdec : isDecoratedClassElement p.2 isStatic = true :=
      (List.mem_filter.mp hp).2
    have hstat : p.2.isStatic = isStatic := by
      simp only [isDecoratedClassElement, Bool.and_eq_true, beq_iff_eq] at hdec
      exact hdec.2
    unfold generateClassElementDecorationExpression at hgen
    cases hga : getAllDecoratorsOfClassElement node.members p.1 p.2 with
    | none => rw [hga] at hgen; exact absurd hgen (by simp)
    | some ad =>
      rw [hga] at hgen
      simp only [Option.some_inj] at hgen
      exact ⟨p.2.name, by rw [← hgen, hstat]⟩
  have hlen : ∀ (isStatic : Bool),
      (classElementDecorationStatements node isStatic).length =
        ((getDecoratedClassElements node isStatic).filter
          (fun p => (getAllDecoratorsOfClassElement node.members p.1 p.2).isSome)).length := by
    intro isStatic
    unfold classElementDecorationStatements
    rw [length_filterMap_eq_length_filter]
    congr 1
    apply List.filter_congr
    intro p _
    exact generateClassElementDecorationExpression_isSome node p.1 p.2
  refine ⟨?_, hmem false, hmem true, hlen false, hlen true⟩
  unfold visitClassDeclarationCore
  rw [if_neg (by simp [hts])]
  simp only
  rw [getClassFacts_hasConstructorDecorators_bit, hc]
  simp only [if_true]
  rw [getClassAliasIfNeeded_isSome]
  have hctor : constructorDecorationStatements node node.hasConstructorReference =
      [ClassStmt.ctorDecorate node.hasConstructorReference] := by
    unfold constructorDecorationStatements
    cases hga : getAllDecoratorsOfConstructor node with
    | none =>
      have := getAllDecoratorsOfConstructor_isSome node
      rw [hga, hc] at this
      exact absurd this (by simp)
    | some ad => rfl
  rw [hctor]

/-- Witness for the amended C1 at a concrete class with a class decorator
and one decorated instance property. -/
theorem visitClassDeclaration_decoration_statement_order_witness :
    (visitClassDeclarationCore 2 false
        ⟨0, some "C",
         [⟨.propertyDeclaration, "p", false, true, false, false, false, false⟩],
         true, false, false, false, false, false, false⟩).stmts =
      [ClassStmt.classHead true false]
        ++ classElementDecorationStatements
            ⟨0, some "C",
             [⟨.propertyDeclaration, "p", false, true, false, false, false, false⟩],
             true, false, false, false, false, false, false⟩ false
        ++ classElementDecorationStatements
            ⟨0, some "C",
             [⟨.propertyDeclaration, "p", false, true, false, false, false, false⟩],
             true, false, false, false, false, false, false⟩ true
        ++ [ClassStmt.ctorDecorate false] :=
  (visitClassDeclaration_decoration_statement_order 2 false
      ⟨0, some "C",
       [⟨.propertyDeclaration, "p", false, true, false, false, false, false⟩],
       true, false, false, false, false, false, false⟩ (by decide)).1

/-- C5 counterexample: `serializeTypeNode` is not total — a `LiteralType`
node whose literal kind lies outside the closed literal set (here a
regular-expression literal, representable in a `LiteralTypeNode` from an
invalid parse) makes the inner switch's `default` branch call
`Debug.failBadSyntaxKind`, aborting the transform instead of producing a
runtime-representable expression. -/
theorem serializeTypeNode_aborts_on_unhandled_literal :
    serializeTypeNode ⟨true, 99⟩ (some (.literalType .regularExpressionLiteral)) =
      .error (.failBadSyntaxKind "literal kind outside the closed literal set") := by
  simp [serializeTypeNode, serializeTypeNodeCore]

/-- The BigInt constructor reference is a fixed serialized form. -/
theorem getGlobalBigIntNameWithFallback_form (cfg : SerializerConfig) :
    isSerializedForm (getGlobalBigIntNameWithFallback cfg) = true := by
  unfold getGlobalBigIntNameWithFallback
  split <;> rfl

/-- Serialized entity names are fixed serialized forms. -/
theorem serializeEntityNameAsExpression_form (name : EntityName) :
    isSerializedForm (serializeEntityNameAsExpression name) = true := by
  cases name <;> simp [serializeEntityNameAsExpression, isSerializedForm]

/-- Every serialized type reference is a fixed serialized form. -/
theorem serializeTypeReferenceNode_form (cfg : SerializerConfig) (name : EntityName)
    (refKind : TypeReferenceSerializationKind) (inCond : Bool) :
    isSerializedForm (serializeTypeReferenceNode cfg name refKind inCond) = true := by
  cases refKind with
  | unknown =>
    simp only [serializeTypeReferenceNode]
    cases inCond <;> rfl
  | typeWithConstructSignatureAndValue =>
    simp only [serializeTypeReferenceNode]
    exact serializeEntityNameAsExpression_form name
  | bigIntLikeType =>
    simp only [serializeTypeReferenceNode]
    exact getGlobalBigIntNameWithFallback_form cfg
  | esSymbolType =>
    simp only [serializeTypeReferenceNode]
    split <;> rfl
  | voidNullableOrNeverType => rfl
  | booleanType => rfl
  | numberLikeType => rfl
  | stringLikeType => rfl
  | arrayLikeType => rfl
  | typeWithCallSignature => rfl
  | promise => rfl
  | objectType => rfl

/-- Every type node's weight is positive. -/
theorem typeNodeWeight_pos (t : TypeNode) : 1 ≤ typeNodeWeight t := by
  cases t <;> simp [typeNodeWeight]

/-- The serializer is total and produces fixed serialized forms on
well-formed inputs — joint induction on the weight for the mutual
`serializeTypeNodeCore` / `serializeTypeList` recursion. -/
theorem serialize_ok_of_wf_aux (cfg : SerializerConfig) :
    ∀ n : Nat,
      (∀ t : TypeNode, typeNodeWeight t ≤ n → t.wf = true →
        ∃ e, serializeTypeNodeCore cfg t = .ok e ∧ isSerializedForm e = true) ∧
      (∀ (ts : List TypeNode) (acc : Option Expr), typeNodeListWeight ts ≤ n →
        typeNodeListWf ts = true →
        (∀ u, acc = some u → isSerializedForm u = true) →
        ∃ e, serializeTypeList cfg ts acc = .ok e ∧ isSerializedForm e = true) := by
  intro n
  induction n with
  | zero =>
    constructor
    · intro t ht _
      exact absurd ht (by have := typeNodeWeight_pos t; omega)
    · intro ts acc hw _ hacc
      cases ts with
      | nil =>
        refine ⟨acc.getD .voidZero, by simp [serializeTypeList], ?_⟩
        cases acc with
        | none => rfl
        | some u => simpa using hacc u rfl
      | cons t rest =>
        exfalso
        have h1 := typeNodeWeight_pos t
        simp only [typeNodeListWeight] at hw
        omega
  | succ n ih =>
    constructor
    · intro t ht hwf
      cases t with
      | voidKeyword => exact ⟨.voidZero, by simp [serializeTypeNodeCore], rfl⟩
      | undefinedKeyword => exact ⟨.voidZero, by simp [serializeTypeNodeCore], rfl⟩
      | neverKeyword => exact ⟨.voidZero, by simp [serializeTypeNodeCore], rfl⟩
      | parenthesizedType t' =>
        have ht' : typeNodeWeight t' ≤ n := by
          simp [typeNodeWeight] at ht; omega
        have hwf' : t'.wf = true := by simpa [TypeNode.wf] using hwf
        obtain ⟨e, he, hf⟩ := ih.1 t' ht' hwf'
        exact ⟨e, by simp [serializeTypeNodeCore, he], hf⟩
      | functionType => exact ⟨.identE "Function", by simp [serializeTypeNodeCore], rfl⟩
      | constructorType => exact ⟨.identE "Function", by simp [serializeTypeNodeCore], rfl⟩
      | arrayType => exact ⟨.identE "Array", by simp [serializeTypeNodeCore], rfl⟩
      | tupleType => exact ⟨.identE "Array", by simp [serializeTypeNodeCore], rfl⟩
      | typePredicate => exact ⟨.identE "Boolean", by simp [serializeTypeNodeCore], rfl⟩
      | booleanKeyword => exact ⟨.identE "Boolean", by simp [serializeTypeNodeCore], rfl⟩
      | stringKeyword => exact ⟨.identE "String", by simp [serializeTypeNodeCore], rfl⟩
      | objectKeyword => exact ⟨.identE "Object", by simp [serializeTypeNodeCore], rfl⟩
      | literalType lit =>
        cases lit with
        | stringLiteral => exact ⟨.identE "String", by simp [serializeTypeNodeCore], rfl⟩
        | noSubstitutionTemplateLiteral =>
          exact ⟨.identE "String", by simp [serializeTypeNodeCore], rfl⟩
        | prefixUnaryExpression =>
          exact ⟨.identE "Number", by simp [serializeTypeNodeCore], rfl⟩
        | numericLiteral => exact ⟨.identE "Number", by simp [serializeTypeNodeCore], rfl⟩
        | bigIntLiteral =>
          exact ⟨getGlobalBigIntNameWithFallback cfg, by simp [serializeTypeNodeCore],
            getGlobalBigIntNameWithFallback_form cfg⟩
        | trueKeyword => exact ⟨.identE "Boolean", by simp [serializeTypeNodeCore], rfl⟩
        | falseKeyword => exact ⟨.identE "Boolean", by simp [serializeTypeNodeCore], rfl⟩
        | nullKeyword => exact ⟨.voidZero, by simp [serializeTypeNodeCore], rfl⟩
        | regularExpressionLiteral => simp [TypeNode.wf] at hwf
      | numberKeyword => exact ⟨.identE "Number", by simp [serializeTypeNodeCore], rfl⟩
      | bigIntKeyword =>
        exact ⟨getGlobalBigIntNameWithFallback cfg, by simp [serializeTypeNodeCore],
          getGlobalBigIntNameWithFallback_form cfg⟩
      | symbolKeyword =>
        refine ⟨if cfg.languageVersion < ScriptTarget.ES2015 then
            getGlobalSymbolNameWithFallback else .identE "Symbol",
          by simp [serializeTypeNodeCore], ?_⟩
        split <;> rfl
      | typeReference name refKind inCond =>
        exact ⟨serializeTypeReferenceNode cfg name refKind inCond,
          by simp [serializeTypeNodeCore],
          serializeTypeReferenceNode_form cfg name refKind inCond⟩
      | intersectionType ts =>
        have hts : typeNodeListWeight ts ≤ n := by
          simp [typeNodeWeight] at ht; omega
        have hwf' : typeNodeListWf ts = true := by simpa [TypeNode.wf] using hwf
        obtain ⟨e, he, hf⟩ := ih.2 ts none hts hwf' (fun u hu => nomatch hu)
        exact ⟨e, by simp [serializeTypeNodeCore, he], hf⟩
      | unionType ts =>
        have hts : typeNodeListWeight ts ≤ n := by
          simp [typeNodeWeight] at ht; omega
        have hwf' : typeNodeListWf ts = true := by simpa [TypeNode.wf] using hwf
        obtain ⟨e, he, hf⟩ := ih.2 ts none hts hwf' (fun u hu => nomatch hu)
        exact ⟨e, by simp [serializeTypeNodeCore, he], hf⟩
      | conditionalType t1 t2 =>
        have hts : typeNodeListWeight [t1, t2] ≤ n := by
          simp [typeNodeWeight] at ht
          simp [typeNodeListWeight]
          omega
        have hwf' : typeNodeListWf [t1, t2] = true := by
          simp [TypeNode.wf] at hwf
          simp [typeNodeListWf, hwf.1, hwf.2]
        obtain ⟨e, he, hf⟩ := ih.2 [t1, t2] none hts hwf' (fun u hu => nomatch hu)
        exact ⟨e, by simp [serializeTypeNodeCore, he], hf⟩
      | typeOperator op t' =>
        cases op with
        | readonlyOp =>
          have ht' : typeNodeWeight t' ≤ n := by
            simp [typeNodeWeight] at ht; omega
          have hwf' : t'.wf = true := by simpa [TypeNode.wf] using hwf
          obtain ⟨e, he, hf⟩ := ih.1 t' ht' hwf'
          exact ⟨e, by simp [serializeTypeNodeCore, he], hf⟩
        | keyofOp => exact ⟨.identE "Object", by simp [serializeTypeNodeCore], rfl⟩
        | uniqueOp => exact ⟨.identE "Object", by simp [serializeTypeNodeCore], rfl⟩
      | typeQuery => exact ⟨.identE "Object", by simp [serializeTypeNodeCore], rfl⟩
      | indexedAccessType => exact ⟨.identE "Object", by simp [serializeTypeNodeCore], rfl⟩
      | mappedType => exact ⟨.identE "Object", by simp [serializeTypeNodeCore], rfl⟩
      | typeLiteral => exact ⟨.identE "Object", by simp [serializeTypeNodeCore], rfl⟩
      | anyKeyword => exact ⟨.identE "Object", by simp [serializeTypeNodeCore], rfl⟩
      | unknownKeyword => exact ⟨.identE "Object", by simp [serializeTypeNodeCore], rfl⟩
      | thisType => exact ⟨.identE "Object", by simp [serializeTypeNodeCore], rfl⟩
      | importType => exact ⟨.identE "Object", by simp [serializeTypeNodeCore], rfl⟩
      | jsDocAllType => exact ⟨.identE "Object", by simp [serializeTypeNodeCore], rfl⟩
      | jsDocUnknownType => exact ⟨.identE "Object", by simp [serializeTypeNodeCore], rfl⟩
      | jsDocFunctionType => exact ⟨.identE "Object", by simp [serializeTypeNodeCore], rfl⟩
      | jsDocVariadicType => exact ⟨.identE "Object", by simp [serializeTypeNodeCore], rfl⟩
      | jsDocNamepathType => exact ⟨.identE "Object", by simp [serializeTypeNodeCore], rfl⟩
      | jsDocNullableType t' =>
        have ht' : typeNodeWeight t' ≤ n := by
          simp [typeNodeWeight] at ht; omega
        have hwf' : t'.wf = true := by simpa [TypeNode.wf] using hwf
        obtain ⟨e, he, hf⟩ := ih.1 t' ht' hwf'
        exact ⟨e, by simp [serializeTypeNodeCore, he], hf⟩
      | jsDocNonNullableType t' =>
        have ht' : typeNodeWeight t' ≤ n := by
          simp [typeNodeWeight] at ht; omega
        have hwf' : t'.wf = true := by simpa [TypeNode.wf] using hwf
        obtain ⟨e, he, hf⟩ := ih.1 t' ht' hwf'
        exact ⟨e, by simp [serializeTypeNodeCore, he], hf⟩
      | jsDocOptionalType t' =>
        have ht' : typeNodeWeight t' ≤ n := by
          simp [typeNodeWeight] at ht; omega
        have hwf' : t'.wf = true := by simpa [TypeNode.wf] using hwf
        obtain ⟨e, he, hf⟩ := ih.1 t' ht' hwf'
        exact ⟨e, by simp [serializeTypeNodeCore, he], hf⟩
    · intro ts acc hw hwf hacc
      cases ts with
      | nil =>
        refine ⟨acc.getD .voidZero, by simp [serializeTypeList], ?_⟩
        cases acc with
        | none => rfl
        | some u => simpa using hacc u rfl
      | cons t rest =>
        have hwt : typeNodeWeight t ≤ n := by
          have := typeNodeWeight_pos t
          simp [typeNodeListWeight] at hw
          omega
        have hwrest : typeNodeListWeight rest ≤ n := by
          have := typeNodeWeight_pos t
          simp [typeNodeListWeight] at hw
          omega
        have hwft : t.wf = true := by
          simp [typeNodeListWf] at hwf
          exact hwf.1
        have hwfrest : typeNodeListWf rest = true := by
          simp [typeNodeListWf] at hwf
          exact hwf.2
        by_cases hnev : isNeverKeyword (stripParens t) = true
        · obtain ⟨e, he, hf⟩ := ih.2 rest acc hwrest hwfrest hacc
          exact ⟨e, by simp [serializeTypeList, hnev, he], hf⟩
        · by_cases hskip : (!cfg.strictNullChecks
              && (isNullLiteralType (stripParens t) || isUndefinedKeyword (stripParens t)))
              = true
          · obtain ⟨e, he, hf⟩ := ih.2 rest acc hwrest hwfrest hacc
            exact ⟨e, by simp [serializeTypeList, hnev, hskip, he], hf⟩
          · obtain ⟨s, hs, hforms⟩ := ih.1 t hwt hwft
            by_cases hobj : isObjectIdentifier s = true
            · exact ⟨s, by simp [serializeTypeList, hnev, hskip, hs, hobj], hforms⟩
            · cases acc with
              | none =>
                obtain ⟨e, he, hf⟩ := ih.2 rest (some s) hwrest hwfrest
                  (fun u hu => by cases hu; exact hforms)
                exact ⟨e, by simp [serializeTypeList, hnev, hskip, hs, hobj, he], hf⟩
              | some u =>
                by_cases hmis : (!isIdentifierE u || !isIdentifierE s
                    || identifierText u != identifierText s) = true
                · exact ⟨.identE "Object",
                    by simp [serializeTypeList, hnev, hskip, hs, hobj, hmis], rfl⟩
                · obtain ⟨e, he, hf⟩ := ih.2 rest (some u) hwrest hwfrest hacc
                  exact ⟨e, by simp [serializeTypeList, hnev, hskip, hs, hobj, hmis, he], hf⟩

/-- C5 amended: `serializeTypeNode` is total on its recognized input
domain — for `undefined` and for every well-formed type node (one with no
literal-type kind outside the closed literal set anywhere in it), it
returns a runtime-representable expression from the fixed set of forms
(`void 0`, a constructor identifier, a feature-tested or checked
conditional, an entity-name reference, or the generic `Object`); only the
closed-set assertion inputs abort. -/
theorem serializeTypeNode_total_on_wellformed (cfg : SerializerConfig)
    (t : Option TypeNode) (h : ∀ u, t = some u → u.wf = true) :
    ∃ e, serializeTypeNode cfg t = .ok e ∧ isSerializedForm e = true := by
  cases t with
  | none => exact ⟨.identE "Object", rfl, rfl⟩
  | some u =>
    obtain ⟨e, he, hf⟩ :=
      (serialize_ok_of_wf_aux cfg (typeNodeWeight u)).1 u le_rfl (h u rfl)
    exact ⟨e, by simpa [serializeTypeNode] using he, hf⟩

/-- Witness for the amended C5 at a concrete well-formed annotation. -/
theorem serializeTypeNode_total_on_wellformed_witness :
    ∃ e, serializeTypeNode ⟨true, 99⟩ (some .stringKeyword) = .ok e ∧
      isSerializedForm e = true :=
  serializeTypeNode_total_on_wellformed ⟨true, 99⟩ (some .stringKeyword)
    (fun u h => by injection h with h2; subst h2; simp [TypeNode.wf])

/-- An expression passing the `Object`-identifier test is that identifier. -/
theorem eq_object_of_isObjectIdentifier (s : Expr) (h : isObjectIdentifier s = true) :
    s = .identE "Object" := by
  cases s <;> simp [isObjectIdentifier] at h ⊢
  exact h

/-- An expression passing the identifier test is the identifier of its
text. -/
theorem eq_identE_of_isIdentifierE (s : Expr) (h : isIdentifierE s = true) :
    s = .identE (identifierText s) := by
  cases s <;> simp [isIdentifierE, identifierText] at h ⊢

/-- Unfolding `serializeTypeList` over a skipped constituent. -/
theorem serializeTypeList_cons_skip (cfg : SerializerConfig) (t : TypeNode)
    (rest : List TypeNode) (acc : Option Expr)
    (h : skippedConstituent cfg.strictNullChecks t = true) :
    serializeTypeList cfg (t :: rest) acc = serializeTypeList cfg rest acc := by
  simp only [skippedConstituent, Bool.or_eq_true] at h
  rcases h with h | h
  · simp [serializeTypeList, h]
  · by_cases h1 : isNeverKeyword (stripParens t) = true
    · simp [serializeTypeList, h1]
    · simp [serializeTypeList, h1, h]

/-- Unfolding `serializeTypeList` over a non-skipped constituent. -/
theorem serializeTypeList_cons_noskip (cfg : SerializerConfig) (t : TypeNode)
    (rest : List TypeNode) (acc : Option Expr)
    (h : skippedConstituent cfg.strictNullChecks t = false) :
    serializeTypeList cfg (t :: rest) acc =
      match serializeTypeNodeCore cfg t with
      | .error e => .error e
      | .ok s =>
        if isObjectIdentifier s then .ok s
        else
          match acc with
          | some u =>
            if !isIdentifierE u || !isIdentifierE s
                || identifierText u != identifierText s then
              .ok (.identE "Object")
            else serializeTypeList cfg rest acc
          | none => serializeTypeList cfg rest (some s) := by
  simp only [skippedConstituent, Bool.or_eq_false_iff] at h
  obtain ⟨h1, h2⟩ := h
  simp [serializeTypeList, h1, h2]

/-- Unfolding `remainingConstituents` over a skipped constituent. -/
theorem remainingConstituents_cons_skip (strict : Bool) (t : TypeNode)
    (rest : List TypeNode) (h : skippedConstituent strict t = true) :
    remainingConstituents strict (t :: rest) = remainingConstituents strict rest := by
  simp [remainingConstituents, List.filter_cons, h]

/-- Unfolding `remainingConstituents` over a non-skipped constituent. -/
theorem remainingConstituents_cons_noskip (strict : Bool) (t : TypeNode)
    (rest : List TypeNode) (h : skippedConstituent strict t = false) :
    remainingConstituents strict (t :: rest) =
      t :: remainingConstituents strict rest := by
  simp [remainingConstituents, List.filter_cons, h]

/-- With no remaining constituent, the loop returns the accumulator (or
`void 0`). -/
theorem serializeTypeList_of_remaining_nil (cfg : SerializerConfig) :
    ∀ (types : List TypeNode) (acc : Option Expr),
      remainingConstituents cfg.strictNullChecks types = [] →
      serializeTypeList cfg types acc = .ok (acc.getD .voidZero) := by
  intro types
  induction types with
  | nil => intro acc _; simp [serializeTypeList]
  | cons t rest ih =>
    intro acc h
    cases hs : skippedConstituent cfg.strictNullChecks t with
    | true =>
      rw [serializeTypeList_cons_skip cfg t rest acc hs]
      exact ih acc (by rwa [remainingConstituents_cons_skip _ _ _ hs] at h)
    | false =>
      rw [remainingConstituents_cons_noskip _ _ _ hs] at h
      exact absurd h (by simp)

/-- With the accumulator already holding the common constructor identifier,
the loop keeps returning it as long as every remaining constituent
serializes to it. -/
theorem serializeTypeList_common_some (cfg : SerializerConfig) (c : String)
    (hc : c ≠ "Object") :
    ∀ types : List TypeNode,
      (∀ t ∈ remainingConstituents cfg.strictNullChecks types,
        serializeTypeNodeCore cfg t = .ok (.identE c)) →
      serializeTypeList cfg types (some (.identE c)) = .ok (.identE c) := by
  intro types
  induction types with
  | nil => intro _; simp [serializeTypeList]
  | cons t rest ih =>
    intro hall
    cases hs : skippedConstituent cfg.strictNullChecks t with
    | true =>
      rw [serializeTypeList_cons_skip cfg t rest _ hs]
      exact ih (fun u hu => hall u (by rw [remainingConstituents_cons_skip _ _ _ hs]; exact hu))
    | false =>
      rw [serializeTypeList_cons_noskip cfg t rest _ hs]
      have ht : serializeTypeNodeCore cfg t = .ok (.identE c) :=
        hall t (by rw [remainingConstituents_cons_noskip _ _ _ hs]; exact List.mem_cons_self t _)
      rw [ht]
      have hobj : isObjectIdentifier (Expr.identE c) = false := by
        simp [isObjectIdentifier]
        exact hc
      simp only [hobj, Bool.false_eq_true, if_false]
      have hmis : (!isIdentifierE (Expr.identE c) || !isIdentifierE (Expr.identE c)
          || identifierText (Expr.identE c) != identifierText (Expr.identE c)) = false := by
        simp [isIdentifierE, identifierText]
      simp only [hmis, Bool.false_eq_true, if_false]
      exact ih (fun u hu => hall u
        (by rw [remainingConstituents_cons_noskip _ _ _ hs]; exact List.mem_cons_of_mem t hu))

/-- Part (b) of the collapse: a non-empty remaining list all of whose
members serialize to the same non-`Object` constructor identifier collapses
to that identifier. -/
theorem serializeTypeList_common (cfg : SerializerConfig) (c : String)
    (hc : c ≠ "Object") :
    ∀ types : List TypeNode,
      remainingConstituents cfg.strictNullChecks types ≠ [] →
      (∀ t ∈ remainingConstituents cfg.strictNullChecks types,
        serializeTypeNodeCore cfg t = .ok (.identE c)) →
      serializeTypeList cfg types none = .ok (.identE c) := by
  intro types
  induction types with
  | nil => intro h _; exact absurd rfl h
  | cons t rest ih =>
    intro hne hall
    cases hs : skippedConstituent cfg.strictNullChecks t with
    | true =>
      rw [serializeTypeList_cons_skip cfg t rest _ hs]
      rw [remainingConstituents_cons_skip _ _ _ hs] at hne hall
      exact ih hne hall
    | false =>
      rw [serializeTypeList_cons_noskip cfg t rest _ hs]
      rw [remainingConstituents_cons_noskip _ _ _ hs] at hall
      have ht : serializeTypeNodeCore cfg t = .ok (.identE c) :=
        hall t (List.mem_cons_self t _)
      rw [ht]
      have hobj : isObjectIdentifier (Expr.identE c) = false := by
        simp [isObjectIdentifier]
        exact hc
      simp only [hobj, Bool.false_eq_true, if_false]
      exact serializeTypeList_common_some cfg c hc rest
        (fun u hu => hall u (List.mem_cons_of_mem t hu))

/-- Part (c) of the collapse: if some remaining constituent serializes to
the `Object` identifier (and the ones reached before it serialize at all),
the loop returns `Object`, whatever the accumulator holds. -/
theorem serializeTypeList_object_member (cfg : SerializerConfig) :
    ∀ (types : List TypeNode) (acc : Option Expr),
      (∀ t ∈ remainingConstituents cfg.strictNullChecks types,
        ∃ e, serializeTypeNodeCore cfg t = .ok e) →
      (∃ t ∈ remainingConstituents cfg.strictNullChecks types,
        serializeTypeNodeCore cfg t = .ok (.identE "Object")) →
      serializeTypeList cfg types acc = .ok (.identE "Object") := by
  intro types
  induction types with
  | nil =>
    intro acc _ hwit
    simp [remainingConstituents] at hwit
  | cons t rest ih =>
    intro acc hall hwit
    cases hs : skippedConstituent cfg.strictNullChecks t with
    | true =>
      rw [serializeTypeList_cons_skip cfg t rest acc hs]
      rw [remainingConstituents_cons_skip _ _ _ hs] at hall hwit
      exact ih acc hall hwit
    | false =>
      rw [serializeTypeList_cons_noskip cfg t rest acc hs]
      rw [remainingConstituents_cons_noskip _ _ _ hs] at hall hwit
      obtain ⟨s, hts⟩ := hall t (List.mem_cons_self t _)
      rw [hts]
      by_cases hobj : isObjectIdentifier s = true
      · rw [eq_object_of_isObjectIdentifier s hobj] at hts ⊢
        simp [isObjectIdentifier]
      · have hwit' : ∃ u ∈ remainingConstituents cfg.strictNullChecks rest,
            serializeTypeNodeCore cfg u = .ok (.identE "Object") := by
          obtain ⟨u, hu, hus⟩ := hwit
          rcases List.mem_cons.mp hu with rfl | hu'
          · rw [hts] at hus
            injection hus with h2
            rw [h2] at hobj
            simp [isObjectIdentifier] at hobj
          · exact ⟨u, hu', hus⟩
        simp only [Bool.not_eq_true] at hobj
        simp only [hobj, Bool.false_eq_true, if_false]
        cases acc with
        | none =>
          exact ih (some s) (fun u hu => hall u (List.mem_cons_of_mem t hu)) hwit'
        | some u =>
          by_cases hmis : (!isIdentifierE u || !isIdentifierE s
              || identifierText u != identifierText s) = true
          · simp [hmis]
          · simp only [Bool.not_eq_true] at hmis
            simp only [hmis, Bool.false_eq_true, if_false]
            exact ih (some u) (fun v hv => hall v (List.mem_cons_of_mem t hv)) hwit'

/-- A non-identifier accumulator meeting any further (serializable)
remaining constituent collapses to `Object`. -/
theorem serializeTypeList_acc_nonident (cfg : SerializerConfig) (u : Expr)
    (hu : isIdentifierE u = false) :
    ∀ types : List TypeNode,
      (∀ t ∈ remainingConstituents cfg.strictNullChecks types,
        ∃ e, serializeTypeNodeCore cfg t = .ok e) →
      remainingConstituents cfg.strictNullChecks types ≠ [] →
      serializeTypeList cfg types (some u) = .ok (.identE "Object") := by
  intro types
  induction types with
  | nil => intro _ hne; exact absurd rfl hne
  | cons t rest ih =>
    intro hall hne
    cases hs : skippedConstituent cfg.strictNullChecks t with
    | true =>
      rw [serializeTypeList_cons_skip cfg t rest _ hs]
      rw [remainingConstituents_cons_skip _ _ _ hs] at hall hne
      exact ih hall hne
    | false =>
      rw [serializeTypeList_cons_noskip cfg t rest _ hs]
      rw [remainingConstituents_cons_noskip _ _ _ hs] at hall
      obtain ⟨s, hts⟩ := hall t (List.mem_cons_self t _)
      rw [hts]
      by_cases hobj : isObjectIdentifier s = true
      · rw [eq_object_of_isObjectIdentifier s hobj] at hts ⊢
        simp [isObjectIdentifier]
      · simp only [Bool.not_eq_true] at hobj
        simp only [hobj, Bool.false_eq_true, if_false]
        simp [hu]

/-- An identifier accumulator meeting a remaining constituent that
serializes to anything else collapses to `Object`. -/
theorem serializeTypeList_acc_ident_deviation (cfg : SerializerConfig) (a : String) :
    ∀ types : List TypeNode,
      (∀ t ∈ remainingConstituents cfg.strictNullChecks types,
        ∃ e, serializeTypeNodeCore cfg t = .ok e) →
      (∃ t ∈ remainingConstituents cfg.strictNullChecks types,
        ∃ s, serializeTypeNodeCore cfg t = .ok s ∧ s ≠ .identE a) →
      serializeTypeList cfg types (some (.identE a)) = .ok (.identE "Object") := by
  intro types
  induction types with
  | nil =>
    intro _ hwit
    simp [remainingConstituents] at hwit
  | cons t rest ih =>
    intro hall hwit
    cases hs : skippedConstituent cfg.strictNullChecks t with
    | true =>
      rw [serializeTypeList_cons_skip cfg t rest _ hs]
      rw [remainingConstituents_cons_skip _ _ _ hs] at hall hwit
      exact ih hall hwit
    | false =>
      rw [serializeTypeList_cons_noskip cfg t rest _ hs]
      rw [remainingConstituents_cons_noskip _ _ _ hs] at hall hwit
      obtain ⟨s, hts⟩ := hall t (List.mem_cons_self t _)
      rw [hts]
      by_cases hobj : isObjectIdentifier s = true
      · rw [eq_object_of_isObjectIdentifier s hobj] at hts ⊢
        simp [isObjectIdentifier]
      · simp only [Bool.not_eq_true] at hobj
        simp only [hobj, Bool.false_eq_true, if_false]
        by_cases hmis : (!isIdentifierE (Expr.identE a) || !isIdentifierE s
            || identifierText (Expr.identE a) != identifierText s) = true
        · simp [hmis]
        · simp only [Bool.not_eq_true] at hmis
          simp only [hmis, Bool.false_eq_true, if_false]
          have hsid : s = .identE a := by
            simp only [Bool.or_eq_false_iff, Bool.not_eq_false', bne_eq_false_iff_eq] at hmis
            have h1 := eq_identE_of_isIdentifierE s hmis.1.2
            rw [h1, ← hmis.2]
            simp [identifierText]
          have hwit' : ∃ v ∈ remainingConstituents cfg.strictNullChecks rest,
              ∃ s2, serializeTypeNodeCore cfg v = .ok s2 ∧ s2 ≠ .identE a := by
            obtain ⟨v, hv, s2, hvs, hs2⟩ := hwit
            rcases List.mem_cons.mp hv with rfl | hv'
            · rw [hts] at hvs
              injection hvs with h2
              rw [← h2, hsid] at hs2
              exact absurd rfl hs2
            · exact ⟨v, hv', s2, hvs, hs2⟩
          exact ih (fun v hv => hall v (List.mem_cons_of_mem t hv)) hwit'

/-- Part (d) of the collapse: two remaining constituents serializing to
different constructor identifiers force `Object`. -/
theorem serializeTypeList_two_different (cfg : SerializerConfig) :
    ∀ types : List TypeNode,
      (∀ t ∈ remainingConstituents cfg.strictNullChecks types,
        ∃ e, serializeTypeNodeCore cfg t = .ok e) →
      (∃ t1 ∈ remainingConstituents cfg.strictNullChecks types,
        ∃ t2 ∈ remainingConstituents cfg.strictNullChecks types,
        ∃ c1 c2, c1 ≠ c2 ∧ serializeTypeNodeCore cfg t1 = .ok (.identE c1) ∧
          serializeTypeNodeCore cfg t2 = .ok (.identE c2)) →
      serializeTypeList cfg types none = .ok (.identE "Object") := by
  intro types
  induction types with
  | nil =>
    intro _ hwit
    simp [remainingConstituents] at hwit
  | cons t rest ih =>
    intro hall hwit
    cases hs : skippedConstituent cfg.strictNullChecks t with
    | true =>
      rw [serializeTypeList_cons_skip cfg t rest _ hs]
      rw [remainingConstituents_cons_skip _ _ _ hs] at hall hwit
      exact ih hall hwit
    | false =>
      rw [serializeTypeList_cons_noskip cfg t rest _ hs]
      rw [remainingConstituents_cons_noskip _ _ _ hs] at hall hwit
      obtain ⟨s, hts⟩ := hall t (List.mem_cons_self t _)
      rw [hts]
      by_cases hobj : isObjectIdentifier s = true
      · rw [eq_object_of_isObjectIdentifier s hobj] at hts ⊢
        simp [isObjectIdentifier]
      · simp only [Bool.not_eq_true] at hobj
        simp only [hobj, Bool.false_eq_true, if_false]
        have hall' : ∀ v ∈ remainingConstituents cfg.strictNullChecks rest,
            ∃ e, serializeTypeNodeCore cfg v = .ok e :=
          fun v hv => hall v (List.mem_cons_of_mem t hv)
        obtain ⟨t1, h1, t2, h2, c1, c2, hcc, hc1, hc2⟩ := hwit
        by_cases hid : isIdentifierE s = true
        · have hsid : s = .identE (identifierText s) := eq_identE_of_isIdentifierE s hid
          rw [hsid]
          apply serializeTypeList_acc_ident_deviation cfg (identifierText s) rest hall'
          by_cases hca : c1 = identifierText s
          · refine ⟨t2, ?_, .identE c2, hc2, ?_⟩
            · rcases List.mem_cons.mp h2 with rfl | h2'
              · rw [hts] at hc2
                injection hc2 with h3
                rw [hsid] at h3
                injection h3 with h4
                exact absurd (h4.symm.trans hca.symm) (Ne.symm hcc)
              · exact h2'
            · intro hcon
              injection hcon with h5
              exact hcc (hca.trans h5.symm)
          · refine ⟨t1, ?_, .identE c1, hc1, ?_⟩
            · rcases List.mem_cons.mp h1 with rfl | h1'
              · rw [hts] at hc1
                injection hc1 with h3
                rw [hsid] at h3
                injection h3 with h4
                exact absurd h4.symm hca
              · exact h1'
            · intro hcon
              injection hcon with h5
              exact hca h5
        · simp only [Bool.not_eq_true] at hid
          apply serializeTypeList_acc_nonident cfg s hid rest hall'
          have h1' : t1 ∈ remainingConstituents cfg.strictNullChecks rest := by
            rcases List.mem_cons.mp h1 with rfl | h1'
            · rw [hts] at hc1
              injection hc1 with h3
              rw [h3] at hid
              simp [isIdentifierE] at hid
            · exact h1'
          exact List.ne_nil_of_mem h1'

/-- C6: for every union or intersection type node, `serializeTypeList`
collapses the constituents as follows: with parenthesized wrappers
unwrapped, `never` always excluded, and `null`/`undefined` excluded exactly
when strict-null-checking is off — if nothing remains the result is
`void 0`; if all remaining constituents serialize to one constructor
identifier other than `Object`, the result is that identifier; if any
remaining constituent serializes to `Object`, or two remaining constituents
serialize to different identifiers, the result is `Object`. -/
theorem serializeTypeList_union_collapse (cfg : SerializerConfig)
    (types : List TypeNode) :
    serializeTypeNodeCore cfg (.unionType types) = serializeTypeList cfg types none ∧
    serializeTypeNodeCore cfg (.intersectionType types) =
      serializeTypeList cfg types none ∧
    (remainingConstituents cfg.strictNullChecks types = [] →
      serializeTypeList cfg types none = .ok .voidZero) ∧
    (∀ c : String, c ≠ "Object" →
      remainingConstituents cfg.strictNullChecks types ≠ [] →
      (∀ t ∈ remainingConstituents cfg.strictNullChecks types,
        serializeTypeNodeCore cfg t = .ok (.identE c)) →
      serializeTypeList cfg types none = .ok (.identE c)) ∧
    ((∀ t ∈ remainingConstituents cfg.strictNullChecks types,
        ∃ e, serializeTypeNodeCore cfg t = .ok e) →
      (∃ t ∈ remainingConstituents cfg.strictNullChecks types,
        serializeTypeNodeCore cfg t = .ok (.identE "Object")) →
      serializeTypeList cfg types none = .ok (.identE "Object")) ∧
    ((∀ t ∈ remainingConstituents cfg.strictNullChecks types,
        ∃ e, serializeTypeNodeCore cfg t = .ok e) →
      (∃ t1 ∈ remainingConstituents cfg.strictNullChecks types,
        ∃ t2 ∈ remainingConstituents cfg.strictNullChecks types,
        ∃ c1 c2, c1 ≠ c2 ∧ serializeTypeNodeCore cfg t1 = .ok (.identE c1) ∧
          serializeTypeNodeCore cfg t2 = .ok (.identE c2)) →
      serializeTypeList cfg types none = .ok (.identE "Object")) := by
  refine ⟨by simp [serializeTypeNodeCore], by simp [serializeTypeNodeCore], ?_, ?_, ?_, ?_⟩
  · intro h
    rw [serializeTypeList_of_remaining_nil cfg types none h]
    rfl
  · intro c hc hne hall
    exact serializeTypeList_common cfg c hc types hne hall
  · intro hall hwit
    exact serializeTypeList_object_member cfg types none hall hwit
  · intro hall hwit
    exact serializeTypeList_two_different cfg types hall hwit

/-- Witness for C6 at concrete unions: `(boolean) | undefined | boolean`
without strict null checks collapses to `Boolean`; `never | undefined`
without strict null checks collapses to `void 0`; `number | string` under
strict null checks collapses to `Object`; `any | string` collapses to
`Object` because `any` serializes to `Object`. -/
theorem serializeTypeList_union_collapse_witness :
    serializeTypeList ⟨false, 99⟩
      [.parenthesizedType .booleanKeyword, .undefinedKeyword, .booleanKeyword] none =
      .ok (.identE "Boolean") ∧
    serializeTypeList ⟨false, 99⟩ [.neverKeyword, .undefinedKeyword] none =
      .ok .voidZero ∧
    serializeTypeList ⟨true, 99⟩ [.numberKeyword, .stringKeyword] none =
      .ok (.identE "Object") ∧
    serializeTypeList ⟨true, 99⟩ [.anyKeyword, .stringKeyword] none =
      .ok (.identE "Object") := by
  have hrem1 : remainingConstituents false
      [.parenthesizedType .booleanKeyword, .undefinedKeyword, .booleanKeyword] =
      [.parenthesizedType .booleanKeyword, .booleanKeyword] := rfl
  have hrem3 : remainingConstituents true [.numberKeyword, .stringKeyword] =
      [.numberKeyword, .stringKeyword] := rfl
  have hrem4 : remainingConstituents true [.anyKeyword, .stringKeyword] =
      [.anyKeyword, .stringKeyword] := rfl
  refine ⟨?_, ?_, ?_, ?_⟩
  · apply (serializeTypeList_union_collapse ⟨false, 99⟩
      [.parenthesizedType .booleanKeyword, .undefinedKeyword, .booleanKeyword]).2.2.2.1
      "Boolean" (by decide)
    · rw [hrem1]
      simp
    · intro t ht
      rw [hrem1] at ht
      rcases List.mem_cons.mp ht with rfl | ht2
      · simp [serializeTypeNodeCore]
      rcases List.mem_cons.mp ht2 with rfl | ht3
      · simp [serializeTypeNodeCore]
      · exact absurd ht3 (by simp)
  · apply (serializeTypeList_union_collapse ⟨false, 99⟩
      [.neverKeyword, .undefinedKeyword]).2.2.1
    rfl
  · apply (serializeTypeList_union_collapse ⟨true, 99⟩
      [.numberKeyword, .stringKeyword]).2.2.2.2.2
    · intro t ht
      rw [hrem3] at ht
      rcases List.mem_cons.mp ht with rfl | ht2
      · exact ⟨.identE "Number", by simp [serializeTypeNodeCore]⟩
      rcases List.mem_cons.mp ht2 with rfl | ht3
      · exact ⟨.identE "String", by simp [serializeTypeNodeCore]⟩
      · exact absurd ht3 (by simp)
    · refine ⟨.numberKeyword, by rw [hrem3]; exact List.mem_cons_self _ _,
        .stringKeyword, by rw [hrem3]; simp,
        "Number", "String", by decide,
        by simp [serializeTypeNodeCore], by simp [serializeTypeNodeCore]⟩
  · apply (serializeTypeList_union_collapse ⟨true, 99⟩
      [.anyKeyword, .stringKeyword]).2.2.2.2.1
    · intro t ht
      rw [hrem4] at ht
      rcases List.mem_cons.mp ht with rfl | ht2
      · exact ⟨.identE "Object", by simp [serializeTypeNodeCore]⟩
      rcases List.mem_cons.mp ht2 with rfl | ht3
      · exact ⟨.identE "String", by simp [serializeTypeNodeCore]⟩
      · exact absurd ht3 (by simp)
    · exact ⟨.anyKeyword, by rw [hrem4]; exact List.mem_cons_self _ _,
        by simp [serializeTypeNodeCore]⟩

end TsTransform
